import Mathlib

/-!
Verification of the response-validation/transformation layer, the transport
adapter and the JSON file export of the IPeeps IP-geolocation client.

The Python source operates on parsed JSON data (dictionaries with string
keys and heterogeneous values).  We embed that universe as the inductive
type `JVal` below: strings, integers, booleans, null and objects.  The
upstream API payloads consumed by the code use no JSON arrays, and
floating-point payload fields are outside the scope of this development,
so those two constructors are omitted.  Python dictionaries are embedded
as association lists with string keys; genuine Python dictionaries never
carry a duplicate key, which the predicate `dictWF` captures where it
matters.  Dynamic failures (AttributeError / TypeError raised by the
interpreter) are embedded with `Except String`.
-/

/-- A parsed JSON value as the Python code manipulates it. -/
inductive JVal where
  | str : String → JVal
  | num : Int → JVal
  | bool : Bool → JVal
  | null : JVal
  | obj : List (String × JVal) → JVal

/-- A Python dictionary with string keys, as an association list. -/
abbrev PyDict := List (String × JVal)

/-- Python truthiness of a value (`bool(v)`): empty strings, zero, `False`,
`None` and empty dictionaries are falsy; everything else is truthy. -/
def truthy : JVal → Bool
  | .str s => s != ""
  | .num n => n != 0
  | .bool b => b
  | .null => false
  | .obj fields => !fields.isEmpty

/-- Whether a value is a Python `str`. -/
def JVal.isStr : JVal → Bool
  | .str _ => true
  | _ => false

/-- Python `d.get(k, dflt)` on a genuine dictionary: the first binding of `k`,
or the default when the key is absent. -/
def dictGet (d : PyDict) (k : String) (dflt : JVal) : JVal :=
  match d.lookup k with
  | some v => v
  | none => dflt

/-- Python `v.get(k, dflt)` on an arbitrary value: Python raises AttributeError
when the receiver is not a dictionary. -/
def pyGet (v : JVal) (k : String) (dflt : JVal) : Except String JVal :=
  match v with
  | .obj fields => .ok (dictGet fields k dflt)
  | _ => .error "AttributeError: get called on a non-dict value"

/-- Python membership `c in v` for a one-character needle: substring test
on strings, key test on dictionaries, TypeError otherwise. -/
def pyContains (needle : Char) (v : JVal) : Except String Bool :=
  match v with
  | .str s => .ok (s.data.contains needle)
  | .obj fields => .ok (fields.any (fun p => p.1 == String.singleton needle))
  | _ => .error "TypeError: argument is not iterable"

mutual
/-- Python `repr` of a value, for the common case of payload data with no
exotic control characters (used only through `pyStr` on dictionaries). -/
def pyRepr : JVal → String
  | .str s => String.singleton (Char.ofNat 39) ++ s ++ String.singleton (Char.ofNat 39)
  | .num n => toString n
  | .bool b => if b then "True" else "False"
  | .null => "None"
  | .obj fields => pyReprFields fields
/-- Python `repr` of a dictionary body. -/
def pyReprFields : List (String × JVal) → String
  | [] => String.singleton (Char.ofNat 123) ++ String.singleton (Char.ofNat 125)
  | [(k, v)] =>
      String.singleton (Char.ofNat 123) ++ pyRepr (.str k) ++ ": " ++ pyRepr v ++
        String.singleton (Char.ofNat 125)
  | (k, v) :: rest =>
      String.singleton (Char.ofNat 123) ++ pyRepr (.str k) ++ ": " ++ pyRepr v ++ ", " ++
        (pyReprFields rest).drop 1
end

/-- Python `str(v)`: identity on strings, decimal for integers,
`True`/`False`/`None` for the other scalars, `repr` for dictionaries. -/
def pyStr : JVal → String
  | .str s => s
  | .num n => toString n
  | .bool b => if b then "True" else "False"
  | .null => "None"
  | .obj fields => pyReprFields fields

/-! ## data_processor.py -/

/-- From `DataProcessor.validate_response`: the required fields of a response. -/
def required_fields : List String := ["ip_address"]

/-- Embeds `DataProcessor.validate_response`: false for `None`, for a falsy
(empty) dictionary, and when any required field is absent. -/
def validate_response (data : Option PyDict) : Bool :=
  match data with
  | none => false
  | some d =>
      if d.isEmpty then false
      else required_fields.all (fun f => (d.lookup f).isSome)

/-- Embeds `DataProcessor._determine_ip_version`, applied to whatever value sits
under `ip_address` (Python membership may raise on non-iterables). -/
def determine_ip_version (ip_address : JVal) : Except String String := do
  if (← pyContains ':' ip_address) then
    pure "IPv6"
  else if (← pyContains '.' ip_address) then
    pure "IPv4"
  else
    pure "Unknown"

/-- Embeds `DataProcessor.extract_basic_info`. -/
def extract_basic_info (data : PyDict) : Except String PyDict := do
  let version ← determine_ip_version (dictGet data "ip_address" (.str ""))
  pure [("IP Address", dictGet data "ip_address" (.str "N/A")),
        ("IP Version", .str version),
        ("City", dictGet data "city" (.str "N/A")),
        ("Region", dictGet data "region" (.str "N/A")),
        ("Country", dictGet data "country" (.str "N/A")),
        ("Country Code", dictGet data "country_code" (.str "N/A")),
        ("Continent", dictGet data "continent" (.str "N/A")),
        ("Postal Code", dictGet data "postal_code" (.str "N/A")),
        ("Latitude", .str (pyStr (dictGet data "latitude" (.str "N/A")))),
        ("Longitude", .str (pyStr (dictGet data "longitude" (.str "N/A"))))]

/-- Embeds `DataProcessor.extract_connection_info`. -/
def extract_connection_info (data : PyDict) : Except String PyDict := do
  let connection := dictGet data "connection" (.obj [])
  pure [("ISP", ← pyGet connection "isp_name" (.str "N/A")),
        ("Organization", ← pyGet connection "organization_name" (.str "N/A")),
        ("ASN", .str (pyStr (← pyGet connection "autonomous_system_number" (.str "N/A")))),
        ("ASN Organization", ← pyGet connection "autonomous_system_organization" (.str "N/A")),
        ("Connection Type", ← pyGet connection "connection_type" (.str "N/A"))]

/-- Embeds `DataProcessor.extract_timezone_info`. -/
def extract_timezone_info (data : PyDict) : Except String PyDict := do
  let timezone := dictGet data "timezone" (.obj [])
  pure [("Timezone Name", ← pyGet timezone "name" (.str "N/A")),
        ("Abbreviation", ← pyGet timezone "abbreviation" (.str "N/A")),
        ("GMT Offset", .str (pyStr (← pyGet timezone "gmt_offset" (.str "N/A")))),
        ("Current Time", ← pyGet timezone "current_time" (.str "N/A")),
        ("Is DST", .str (pyStr (← pyGet timezone "is_dst" (.str "N/A"))))]

/-- Embeds `DataProcessor._check_proxy`. -/
def check_proxy (security : JVal) : Except String JVal :=
  pyGet security "is_proxy" (.bool false)

/-- Embeds `DataProcessor._check_tor`. -/
def check_tor (security : JVal) : Except String JVal :=
  pyGet security "is_tor" (.bool false)

/-- Embeds `DataProcessor._check_relay`. -/
def check_relay (security : JVal) : Except String JVal :=
  pyGet security "is_relay" (.bool false)

/-- Embeds `DataProcessor._assess_threat_level`: collect the names of the truthy
flags in the fixed order VPN, Proxy, Tor, Relay, then label by count. -/
def assess_threat_level (security : JVal) : Except String String := do
  let v1 ← pyGet security "is_vpn" (.bool false)
  let v2 ← pyGet security "is_proxy" (.bool false)
  let v3 ← pyGet security "is_tor" (.bool false)
  let v4 ← pyGet security "is_relay" (.bool false)
  let threats : List String :=
    (if truthy v1 then ["VPN"] else []) ++
    (if truthy v2 then ["Proxy"] else []) ++
    (if truthy v3 then ["Tor"] else []) ++
    (if truthy v4 then ["Relay"] else [])
  match threats with
  | [] => pure "Clean"
  | [t] => pure ("Low (" ++ t ++ " detected)")
  | ts => pure ("Medium (Multiple: " ++ String.intercalate ", " ts ++ ")")

/-- Embeds `DataProcessor.extract_security_info`. -/
def extract_security_info (data : PyDict) : Except String PyDict := do
  let security := dictGet data "security" (.obj [])
  pure [("Is VPN", ← pyGet security "is_vpn" (.bool false)),
        ("Is Proxy", ← check_proxy security),
        ("Is Tor", ← check_tor security),
        ("Is Relay", ← check_relay security),
        ("Threat Level", .str (← assess_threat_level security))]

/-- Embeds `DataProcessor.extract_currency_info`. -/
def extract_currency_info (data : PyDict) : Except String PyDict := do
  let currency := dictGet data "currency" (.obj [])
  pure [("Currency Name", ← pyGet currency "currency_name" (.str "N/A")),
        ("Currency Code", ← pyGet currency "currency_code" (.str "N/A")),
        ("Currency Symbol", ← pyGet currency "currency_symbol" (.str "N/A"))]

/-- Embeds `DataProcessor.extract_flag_info`. -/
def extract_flag_info (data : PyDict) : Except String PyDict := do
  let flag := dictGet data "flag" (.obj [])
  pure [("Flag Emoji", ← pyGet flag "emoji" (.str "N/A")),
        ("Flag Unicode", ← pyGet flag "unicode" (.str "N/A")),
        ("Flag PNG", ← pyGet flag "png" (.str "N/A")),
        ("Flag SVG", ← pyGet flag "svg" (.str "N/A"))]

/-- The categorised output shape: category name to category dictionary. -/
abbrev CategorizedInfo := List (String × PyDict)

/-- Embeds `DataProcessor.process_all_data`: empty mapping on invalid input,
otherwise the six categories in their fixed order. -/
def process_all_data (data : Option PyDict) : Except String CategorizedInfo := do
  if ¬ validate_response data then
    pure []
  else
    match data with
    | none => pure []
    | some d =>
        pure [("basic", ← extract_basic_info d),
              ("connection", ← extract_connection_info d),
              ("timezone", ← extract_timezone_info d),
              ("security", ← extract_security_info d),
              ("currency", ← extract_currency_info d),
              ("flag", ← extract_flag_info d)]

/-! ## api_client.py

One invocation of a lookup performs at most one HTTP GET.  We embed the
outcome the network would hand that single GET as `NetOutcome` and record
the observable behaviour of the call: the returned value, the error lines
printed, and how many outbound network calls were actually made. -/

/-- The outcome of the single HTTP GET a lookup may issue. -/
inductive NetOutcome where
  | response (status : Nat) (body : JVal)
  | timeout
  | connectionError
  | requestError (msg : String)

/-- Observable behaviour of one lookup invocation. -/
structure CallResult where
  result : Option JVal
  printed : List String
  networkCalls : Nat

/-- Error line for an invalid API key (HTTP 401). -/
def msgAuth : String := "Error: Invalid API key. Please check your credentials."

/-- Error line for a rate-limited request (HTTP 429). -/
def msgRate : String := "Error: API rate limit exceeded. Please try again later."

/-- Error line for an address the upstream rejects (HTTP 422). -/
def msgAddr (ip_address : JVal) : String :=
  "Error: Invalid IP address format: " ++ pyStr ip_address

/-- Error line for any other non-200 status, carrying the code. -/
def msgGeneric (status : Nat) : String :=
  "Error: API returned status code " ++ toString status

/-- Error line for a rejected address argument (validation failure). -/
def msgInvalidInput : String := "Error: Invalid IP address format."

/-- Error line for a transport timeout. -/
def msgTimeout : String := "Error: Request timed out. Please check your internet connection."

/-- Error line for a transport connection failure. -/
def msgConn : String := "Error: Could not connect to API. Please check your internet connection."

/-- Error line for any other transport exception. -/
def msgRequestError (e : String) : String := "Error: An unexpected error occurred: " ++ e

/-- Embeds `AbstractAPIClient.get_current_ip_info`: the status switch of the
current-IP lookup. -/
def get_current_ip_info (net : NetOutcome) : CallResult :=
  match net with
  | .response status body =>
      if status = 200 then ⟨some body, [], 1⟩
      else if status = 401 then ⟨none, [msgAuth], 1⟩
      else if status = 429 then ⟨none, [msgRate], 1⟩
      else ⟨none, [msgGeneric status], 1⟩
  | .timeout => ⟨none, [msgTimeout], 1⟩
  | .connectionError => ⟨none, [msgConn], 1⟩
  | .requestError e => ⟨none, [msgRequestError e], 1⟩

/-- Embeds `AbstractAPIClient.get_specific_ip_info`: the address argument is
rejected before any network activity when it is falsy or not a string;
otherwise exactly one GET is issued and its status is switched on. -/
def get_specific_ip_info (ip_address : JVal) (net : NetOutcome) : CallResult :=
  if !truthy ip_address || !ip_address.isStr then
    ⟨none, [msgInvalidInput], 0⟩
  else
    match net with
    | .response status body =>
        if status = 200 then ⟨some body, [], 1⟩
        else if status = 422 then ⟨none, [msgAddr ip_address], 1⟩
        else if status = 401 then ⟨none, [msgAuth], 1⟩
        else if status = 429 then ⟨none, [msgRate], 1⟩
        else ⟨none, [msgGeneric status], 1⟩
    | .timeout => ⟨none, [msgTimeout], 1⟩
    | .connectionError => ⟨none, [msgConn], 1⟩
    | .requestError e => ⟨none, [msgRequestError e], 1⟩

/-! ## output_formatter.py: JSON file export

`OutputFormatter.save_to_file` writes `json.dump(processed_data, f,
indent=4, ensure_ascii=False)` to the file.  We embed the exact text that
call produces (`dumpVal`) and an ordinary recursive-descent JSON parser
(`parseJson`) standing for `json.loads` on the file contents. -/

/-- One decimal digit character. -/
def digitChar (n : Nat) : Char :=
  if n = 0 then '0' else if n = 1 then '1' else if n = 2 then '2'
  else if n = 3 then '3' else if n = 4 then '4' else if n = 5 then '5'
  else if n = 6 then '6' else if n = 7 then '7' else if n = 8 then '8'
  else '9'

/-- Canonical decimal digits of a natural number (most significant first),
as Python `repr` prints it. -/
def natDump (n : Nat) : List Char :=
  if _h : n < 10 then [digitChar n]
  else natDump (n / 10) ++ [digitChar (n % 10)]
  decreasing_by exact Nat.div_lt_self (by omega) (by omega)

/-- Decimal text of an integer, as the `json` module prints it. -/
def intDump (n : Int) : List Char :=
  if n < 0 then '-' :: natDump n.natAbs else natDump n.toNat

/-- One lower-case hexadecimal digit character. -/
def hexChar (n : Nat) : Char :=
  if n < 10 then digitChar n
  else if n = 10 then 'a' else if n = 11 then 'b' else if n = 12 then 'c'
  else if n = 13 then 'd' else if n = 14 then 'e' else 'f'

/-- How `json.dump` with `ensure_ascii=False` escapes one character of a
string: the quote, the backslash and control characters are escaped,
everything else is written as is. -/
def escapeChar (c : Char) : List Char :=
  if c = '"' then ['\\', '"']
  else if c = '\\' then ['\\', '\\']
  else if c = '\n' then ['\\', 'n']
  else if c = '\t' then ['\\', 't']
  else if c = '\r' then ['\\', 'r']
  else if c = Char.ofNat 8 then ['\\', 'b']
  else if c = Char.ofNat 12 then ['\\', 'f']
  else if c.toNat < 32 then
    ['\\', 'u', '0', '0', hexChar (c.toNat / 16), hexChar (c.toNat % 16)]
  else [c]

/-- Escape every character of a string body. -/
def escapeL : List Char → List Char
  | [] => []
  | c :: rest => escapeChar c ++ escapeL rest

/-- A JSON string literal for `s`. -/
def dumpStr (s : String) : List Char :=
  '"' :: escapeL s.data ++ ['"']

/-- The indentation in front of a line at nesting level `lvl`
(`indent=4`). -/
def padC (lvl : Nat) : List Char :=
  List.replicate (4 * lvl) ' '

mutual
/-- The exact text `json.dump(v, f, indent=4, ensure_ascii=False)` writes
for a value at nesting level `lvl`. -/
def dumpVal : Nat → JVal → List Char
  | _, .null => ['n', 'u', 'l', 'l']
  | _, .bool true => ['t', 'r', 'u', 'e']
  | _, .bool false => ['f', 'a', 'l', 's', 'e']
  | _, .num n => intDump n
  | _, .str s => dumpStr s
  | _, .obj [] => ['\x7b', '\x7d']
  | lvl, .obj ((k, v) :: rest) =>
      '\x7b' :: '\n' ::
        (dumpEntries (lvl + 1) ((k, v) :: rest) ++ '\n' :: padC lvl ++ ['\x7d'])
/-- The member lines of a non-empty object, separated by `",\n"`. -/
def dumpEntries : Nat → List (String × JVal) → List Char
  | _, [] => []
  | lvl, [(k, v)] => padC lvl ++ dumpStr k ++ ':' :: ' ' :: dumpVal lvl v
  | lvl, (k, v) :: rest =>
      padC lvl ++ dumpStr k ++ ':' :: ' ' :: dumpVal lvl v ++
        ',' :: '\n' :: dumpEntries lvl rest
end

/-- The file contents `OutputFormatter.save_to_file` produces for
`processed_data` (the JSON text, written at top level). -/
def save_to_file (processed_data : CategorizedInfo) : String :=
  String.mk (dumpVal 0 (.obj (processed_data.map (fun p => (p.1, JVal.obj p.2)))))

/-- JSON whitespace. -/
def isWsChar (c : Char) : Bool :=
  c = ' ' || c = '\n' || c = '\t' || c = '\r'

/-- Skip JSON whitespace. -/
def skipWs (cs : List Char) : List Char :=
  cs.dropWhile isWsChar

/-- Hexadecimal digit test. -/
def isHexChar (c : Char) : Bool :=
  c.isDigit || (97 ≤ c.toNat && c.toNat ≤ 102) || (65 ≤ c.toNat && c.toNat ≤ 70)

/-- Value of a hexadecimal digit. -/
def hexVal (c : Char) : Nat :=
  if c.isDigit then c.toNat - 48
  else if 97 ≤ c.toNat && c.toNat ≤ 102 then c.toNat - 87
  else c.toNat - 55

/-- A single-character JSON escape. -/
def unescape (e : Char) : Option Char :=
  if e = '"' then some '"'
  else if e = '\\' then some '\\'
  else if e = '/' then some '/'
  else if e = 'n' then some '\n'
  else if e = 't' then some '\t'
  else if e = 'r' then some '\r'
  else if e = 'b' then some (Char.ofNat 8)
  else if e = 'f' then some (Char.ofNat 12)
  else none

/-- Parse the body of a JSON string literal (after the opening quote) up
to and including the closing quote, returning the decoded characters and
the remaining input. -/
def parseStringChars : List Char → Option (List Char × List Char)
  | [] => none
  | c :: rest =>
    if c = '"' then some ([], rest)
    else if c = '\\' then
      match rest with
      | [] => none
      | e :: rest2 =>
        if e = 'u' then
          match rest2 with
          | h1 :: h2 :: h3 :: h4 :: rest3 =>
            if isHexChar h1 && isHexChar h2 && isHexChar h3 && isHexChar h4 then
              match parseStringChars rest3 with
              | some (l, r) =>
                  some (Char.ofNat
                    (((hexVal h1 * 16 + hexVal h2) * 16 + hexVal h3) * 16 + hexVal h4) :: l, r)
              | none => none
            else none
          | _ => none
        else
          match unescape e with
          | some c2 =>
            match parseStringChars rest2 with
            | some (l, r) => some (c2 :: l, r)
            | none => none
          | none => none
    else
      match parseStringChars rest with
      | some (l, r) => some (c :: l, r)
      | none => none

/-- Accumulate decimal digits into a natural number. -/
def parseDigitsAux : List Char → Nat → Nat × List Char
  | [], acc => (acc, [])
  | c :: rest, acc =>
      if c.isDigit then parseDigitsAux rest (acc * 10 + (c.toNat - 48))
      else (acc, c :: rest)

/-- Python `json.loads` builds objects by inserting members left to right into a
dictionary: a repeated key overwrites the earlier value in place. -/
def dictInsert (d : PyDict) (k : String) (v : JVal) : PyDict :=
  match d with
  | [] => [(k, v)]
  | (k0, v0) :: rest =>
      if k0 = k then (k0, v) :: rest else (k0, v0) :: dictInsert rest k v

/-- Parse the remainder of `true` / `false` / `null` after its first
character. -/
def parseTrueTail : List Char → Option (JVal × List Char)
  | 'r' :: 'u' :: 'e' :: r => some (.bool true, r)
  | _ => none

/-- See `parseTrueTail`. -/
def parseFalseTail : List Char → Option (JVal × List Char)
  | 'a' :: 'l' :: 's' :: 'e' :: r => some (.bool false, r)
  | _ => none

/-- See `parseTrueTail`. -/
def parseNullTail : List Char → Option (JVal × List Char)
  | 'u' :: 'l' :: 'l' :: r => some (.null, r)
  | _ => none

/-- A string literal after its opening quote. -/
def parseStrLit (rest : List Char) : Option (JVal × List Char) :=
  match parseStringChars rest with
  | some (l, r) => some (.str (String.mk l), r)
  | none => none

/-- A number after a leading minus sign. -/
def parseNegNum (rest : List Char) : Option (JVal × List Char) :=
  match rest with
  | d :: rest2 =>
    if d.isDigit then
      let p := parseDigitsAux rest2 (d.toNat - 48)
      some (.num (-(p.1 : Int)), p.2)
    else none
  | [] => none

mutual
/-- Parse one JSON value, fuel-bounded.  The fuel only limits object
nesting and member count; `parseJson` passes more fuel than any input can
consume. -/
def parseVal : Nat → List Char → Option (JVal × List Char)
  | 0, _ => none
  | fuel + 1, cs => parseValCore fuel (skipWs cs)
termination_by fuel _ => 5 * fuel + 1
/-- Parse one JSON value whose leading whitespace is already consumed. -/
def parseValCore (fuel : Nat) (cs : List Char) : Option (JVal × List Char) :=
  match cs with
  | [] => none
  | c :: rest =>
      if c = '"' then parseStrLit rest
      else if c = '\x7b' then parseObjBody fuel rest
      else if c = 't' then parseTrueTail rest
      else if c = 'f' then parseFalseTail rest
      else if c = 'n' then parseNullTail rest
      else if c = '-' then parseNegNum rest
      else if c.isDigit then
        let p := parseDigitsAux rest (c.toNat - 48)
        some (.num (p.1 : Int), p.2)
      else none
termination_by 5 * fuel + 4
/-- An object after its opening brace. -/
def parseObjBody (fuel : Nat) (rest : List Char) : Option (JVal × List Char) :=
  match skipWs rest with
  | '\x7d' :: r2 => some (.obj [], r2)
  | cs2 => parseEntriesCore fuel cs2 []
termination_by 5 * fuel + 3
/-- Parse the members of an object after its opening brace (first member
onward), accumulating into `acc`. -/
def parseEntries : Nat → List Char → PyDict → Option (JVal × List Char)
  | 0, _, _ => none
  | fuel + 1, cs, acc => parseEntriesCore fuel (skipWs cs) acc
termination_by fuel _ _ => 5 * fuel + 1
/-- Member parsing with the leading whitespace already consumed. -/
def parseEntriesCore (fuel : Nat) (cs : List Char) (acc : PyDict) :
    Option (JVal × List Char) :=
  match cs with
  | '"' :: rest =>
    match parseStringChars rest with
    | some (k, r1) =>
      match skipWs r1 with
      | ':' :: r2 =>
        match parseVal fuel r2 with
        | some (v, r3) =>
          let acc2 := dictInsert acc (String.mk k) v
          match skipWs r3 with
          | ',' :: r4 => parseEntries fuel r4 acc2
          | '\x7d' :: r4 => some (.obj acc2, r4)
          | _ => none
        | none => none
      | _ => none
    | none => none
  | _ => none
termination_by 5 * fuel + 2
end

/-- Python `json.loads` on a whole document: one value, then only trailing
whitespace. -/
def parseJson (s : String) : Option JVal :=
  match parseVal (s.data.length + 1) s.data with
  | some (v, rest) => if (skipWs rest).isEmpty then some v else none
  | none => none

/-! ## Helper lemmas -/

theorem pyGet_obj (s : PyDict) (k : String) (dflt : JVal) :
    pyGet (.obj s) k dflt = .ok (dictGet s k dflt) := rfl

theorem truthy_str_of_ne (s : String) (hs : s ≠ "") : truthy (.str s) = true := by
  simp [truthy, bne_iff_ne, hs]

/-- Two concatenations differ when the left parts differ at a position
inside both. -/
theorem append_ne_of_diff (l1 l2 r1 r2 : List Char) (i : Nat)
    (h1 : i < l1.length) (h2 : i < l2.length) (hne : l1[i]? ≠ l2[i]?) :
    l1 ++ r1 ≠ l2 ++ r2 := by
  intro h
  have e : (l1 ++ r1)[i]? = (l2 ++ r2)[i]? := by rw [h]
  rw [List.getElem?_append, if_pos h1, List.getElem?_append, if_pos h2] at e
  exact hne e

theorem data_getElem?_concat (a b : String) (i : Nat) (h : i < a.data.length) :
    (a ++ b).data[i]? = a.data[i]? := by
  rw [String.data_append, List.getElem?_append, if_pos h]

/-- A validly addressed specific-IP lookup proceeds to the status switch. -/
theorem gsii_of_valid (s : String) (hs : s ≠ "") (net : NetOutcome) :
    get_specific_ip_info (.str s) net =
      match net with
      | .response status body =>
          if status = 200 then ⟨some body, [], 1⟩
          else if status = 422 then ⟨none, [msgAddr (.str s)], 1⟩
          else if status = 401 then ⟨none, [msgAuth], 1⟩
          else if status = 429 then ⟨none, [msgRate], 1⟩
          else ⟨none, [msgGeneric status], 1⟩
      | .timeout => ⟨none, [msgTimeout], 1⟩
      | .connectionError => ⟨none, [msgConn], 1⟩
      | .requestError e => ⟨none, [msgRequestError e], 1⟩ := by
  have hc : (!truthy (.str s) || !(JVal.str s).isStr) = false := by
    simp [truthy_str_of_ne s hs, JVal.isStr]
  unfold get_specific_ip_info
  rw [hc]
  rfl

/-- A falsy or non-string address is rejected before the network. -/
theorem gsii_of_invalid (v : JVal) (hv : v = .str "" ∨ v.isStr = false)
    (net : NetOutcome) :
    get_specific_ip_info v net = ⟨none, [msgInvalidInput], 0⟩ := by
  have hc : (!truthy v || !v.isStr) = true := by
    rcases hv with rfl | hv
    · rfl
    · simp [hv]
  unfold get_specific_ip_info
  rw [hc]
  rfl

/-- The fixed-order list of threat names selected by four flags. -/
def orderedThreatNames (b1 b2 b3 b4 : Bool) : List String :=
  ([("VPN", b1), ("Proxy", b2), ("Tor", b3), ("Relay", b4)].filter
    (fun p => p.2)).map Prod.fst

/-- The threat label exactly as the specification words it: count the set
flags; zero gives `Clean`, one gives `Low (<Name> detected)`, two or more
give `Medium (Multiple: <names in fixed order>)` (spec-side reference
definition for the refinement statement of C2). -/
def specThreatLabel (b1 b2 b3 b4 : Bool) : String :=
  let names := orderedThreatNames b1 b2 b3 b4
  if names.length = 0 then "Clean"
  else if names.length = 1 then "Low (" ++ names.headD "" ++ " detected)"
  else "Medium (Multiple: " ++ String.intercalate ", " names ++ ")"

/-! ## Claims -/

/-- C2: for a security sub-mapping whose four flags `is_vpn`, `is_proxy`,
`is_tor`, `is_relay` are booleans (defaulting to `False` when absent, as
the hypotheses allow), the derived threat label is exactly the
specification label: `Clean` for zero set flags, `Low (<Name> detected)`
naming the single set flag, `Medium (Multiple: ...)` with the names
comma-joined in the fixed order VPN, Proxy, Tor, Relay for two or more;
and no other tier (such as `High`) is ever produced. -/
theorem threat_level_policy (s : PyDict) (b1 b2 b3 b4 : Bool)
    (h1 : dictGet s "is_vpn" (.bool false) = .bool b1)
    (h2 : dictGet s "is_proxy" (.bool false) = .bool b2)
    (h3 : dictGet s "is_tor" (.bool false) = .bool b3)
    (h4 : dictGet s "is_relay" (.bool false) = .bool b4) :
    assess_threat_level (.obj s) = .ok (specThreatLabel b1 b2 b3 b4) ∧
      (specThreatLabel b1 b2 b3 b4 = "Clean" ∨
       (∃ t, specThreatLabel b1 b2 b3 b4 = "Low (" ++ t ++ " detected)") ∨
       (∃ ts, specThreatLabel b1 b2 b3 b4 = "Medium (Multiple: " ++ ts ++ ")")) := by
  cases b1 <;> cases b2 <;> cases b3 <;> cases b4 <;>
    simp only [assess_threat_level, pyGet, h1, h2, h3, h4, truthy, bind, Except.bind,
      pure, Except.pure, if_true, if_false, Bool.false_eq_true, ite_true, ite_false,
      List.nil_append, List.cons_append, List.append_nil] <;>
    first
      | exact ⟨rfl, Or.inl rfl⟩
      | exact ⟨rfl, Or.inr (Or.inl ⟨_, rfl⟩)⟩
      | exact ⟨rfl, Or.inr (Or.inr ⟨_, rfl⟩)⟩

/-- C2 witness: a concrete security mapping with VPN and Proxy set. -/
theorem threat_level_policy_witness :
    assess_threat_level (.obj [("is_vpn", .bool true), ("is_proxy", .bool true)]) =
      .ok (specThreatLabel true true false false) ∧
      (specThreatLabel true true false false = "Clean" ∨
       (∃ t, specThreatLabel true true false false = "Low (" ++ t ++ " detected)") ∨
       (∃ ts, specThreatLabel true true false false =
          "Medium (Multiple: " ++ ts ++ ")")) :=
  threat_level_policy [("is_vpn", .bool true), ("is_proxy", .bool true)]
    true true false false rfl rfl rfl rfl

/-- C3: the IP version classifier answers `IPv6` when the address contains
a colon, else `IPv4` when it contains a period, else `Unknown`, with the
four concrete examples from the specification. -/
theorem ip_version_classifier (s : String) :
    (':' ∈ s.data → determine_ip_version (.str s) = .ok "IPv6") ∧
    (':' ∉ s.data → '.' ∈ s.data →
      determine_ip_version (.str s) = .ok "IPv4") ∧
    (':' ∉ s.data → '.' ∉ s.data →
      determine_ip_version (.str s) = .ok "Unknown") ∧
    determine_ip_version (.str "8.8.8.8") = .ok "IPv4" ∧
    determine_ip_version (.str "2001:4860:4860::8888") = .ok "IPv6" ∧
    determine_ip_version (.str "") = .ok "Unknown" ∧
    determine_ip_version (.str "notanip") = .ok "Unknown" := by
  refine ⟨?_, ?_, ?_, by rfl, by rfl, by rfl, by rfl⟩
  · intro h
    simp [determine_ip_version, pyContains, h, bind, Except.bind, pure, Except.pure]
  · intro h h2
    simp [determine_ip_version, pyContains, h, h2, bind, Except.bind, pure, Except.pure]
  · intro h h2
    simp [determine_ip_version, pyContains, h, h2, bind, Except.bind, pure, Except.pure]

/-- C3 witness: the universally quantified clauses applied to concrete
addresses. -/
theorem ip_version_classifier_witness :
    determine_ip_version (.str "2001:4860:4860::8888") = .ok "IPv6" ∧
    determine_ip_version (.str "192.168.1.1") = .ok "IPv4" :=
  ⟨(ip_version_classifier "2001:4860:4860::8888").1 (by decide),
   (ip_version_classifier "192.168.1.1").2.1 (by decide) (by decide)⟩



/-- C6: a falsy or non-string address argument is rejected with the
invalid-input failure before any network call; a non-empty string address
leads to exactly one outbound network call, whatever the network does. -/
theorem specific_lookup_validation (v : JVal) (s : String)
    (hv : v = .str "" ∨ v.isStr = false) (hs : s ≠ "") (net net2 : NetOutcome) :
    get_specific_ip_info v net = ⟨none, [msgInvalidInput], 0⟩ ∧
    (get_specific_ip_info (.str s) net2).networkCalls = 1 := by
  refine ⟨gsii_of_invalid v hv net, ?_⟩
  rw [gsii_of_valid s hs net2]
  cases net2 with
  | response status body =>
      by_cases h200 : status = 200
      · simp [h200]
      · by_cases h422 : status = 422
        · simp [h200, h422]
        · by_cases h401 : status = 401
          · simp [h200, h422, h401]
          · by_cases h429 : status = 429
            · simp [h200, h422, h401, h429]
            · simp [h200, h422, h401, h429]
  | timeout => rfl
  | connectionError => rfl
  | requestError e => rfl

/-- C6 witness: the empty string is rejected without a network call;
`"8.8.8.8"` makes exactly one call. -/
theorem specific_lookup_validation_witness :
    get_specific_ip_info (.str "") .timeout = ⟨none, [msgInvalidInput], 0⟩ ∧
    (get_specific_ip_info (.str "8.8.8.8") .timeout).networkCalls = 1 :=
  specific_lookup_validation (.str "") "8.8.8.8" (Or.inl rfl) (by decide) .timeout .timeout

/-- C9: the transformation is a pure function of the raw response; two
invocations on equal responses yield equal outputs (there is no hidden
state in the embedding of `process_all_data`). -/
theorem process_all_data_deterministic (d1 d2 : Option PyDict) (h : d1 = d2) :
    process_all_data d1 = process_all_data d2 := by
  rw [h]

/-- C9 witness: determinism at a concrete response. -/
theorem process_all_data_deterministic_witness :
    process_all_data (some [("ip_address", .str "8.8.8.8")]) =
      process_all_data (some [("ip_address", .str "8.8.8.8")]) :=
  process_all_data_deterministic (some [("ip_address", .str "8.8.8.8")])
    (some [("ip_address", .str "8.8.8.8")]) rfl

/-- C10: when the security flags are booleans (or absent), the security
category is internally consistent: the threat level is `Clean` exactly
when the four reported flags are all `False`. -/
theorem security_category_consistency (data s : PyDict) (b1 b2 b3 b4 : Bool)
    (hs : dictGet data "security" (.obj []) = .obj s)
    (h1 : dictGet s "is_vpn" (.bool false) = .bool b1)
    (h2 : dictGet s "is_proxy" (.bool false) = .bool b2)
    (h3 : dictGet s "is_tor" (.bool false) = .bool b3)
    (h4 : dictGet s "is_relay" (.bool false) = .bool b4) :
    ∃ out, extract_security_info data = .ok out ∧
      (out.lookup "Threat Level" = some (.str "Clean") ↔
        (out.lookup "Is VPN" = some (.bool false) ∧
         out.lookup "Is Proxy" = some (.bool false) ∧
         out.lookup "Is Tor" = some (.bool false) ∧
         out.lookup "Is Relay" = some (.bool false))) := by
  cases b1 <;> cases b2 <;> cases b3 <;> cases b4 <;>
    simp only [extract_security_info, check_proxy, check_tor, check_relay,
      assess_threat_level, hs, pyGet, h1, h2, h3, h4, truthy, bind, Except.bind,
      pure, Except.pure, if_true, if_false, Bool.false_eq_true, ite_true, ite_false,
      List.nil_append, List.cons_append, List.append_nil] <;>
    exact ⟨_, rfl, by simp [List.lookup] <;> decide⟩

/-- C10 witness: a concrete clean security group. -/
theorem security_category_consistency_witness :
    ∃ out, extract_security_info
        [("ip_address", .str "8.8.8.8"), ("security", .obj [("is_vpn", .bool false)])] = .ok out ∧
      (out.lookup "Threat Level" = some (.str "Clean") ↔
        (out.lookup "Is VPN" = some (.bool false) ∧
         out.lookup "Is Proxy" = some (.bool false) ∧
         out.lookup "Is Tor" = some (.bool false) ∧
         out.lookup "Is Relay" = some (.bool false))) :=
  security_category_consistency
    [("ip_address", .str "8.8.8.8"), ("security", .obj [("is_vpn", .bool false)])]
    [("is_vpn", .bool false)] false false false false rfl rfl rfl rfl rfl

/-- A string literal differs from a concatenation when their characters
differ at a position inside both left parts. -/
theorem lit_ne_concat (a c d : String) (i : Nat) (h2 : i < c.data.length)
    (hne : a.data[i]? ≠ c.data[i]?) : a ≠ c ++ d := by
  intro h
  have e := congrArg (fun t : String => t.data[i]?) h
  simp only at e
  rw [data_getElem?_concat c d i h2] at e
  exact hne e

/-- Two concatenations of strings differ when their left parts differ at a
position inside both. -/
theorem concat_ne_concat (a b c d : String) (i : Nat) (h1 : i < a.data.length)
    (h2 : i < c.data.length) (hne : a.data[i]? ≠ c.data[i]?) : a ++ b ≠ c ++ d := by
  intro h
  have e := congrArg (fun t : String => t.data[i]?) h
  simp only at e
  rw [data_getElem?_concat a b i h1, data_getElem?_concat c d i h2] at e
  exact hne e

/-- C5: on HTTP 200 both lookups return the parsed body unchanged; 401,
422 (specific path), 429 and every other non-200 status produce the
unauthorized / unprocessable-address / rate-limited / generic failure
respectively, with exactly one network call (no retry) in every case; the
four failure messages are pairwise distinct, and the generic one carries
the literal status code. -/
theorem transport_status_mapping (s : String) (hs : s ≠ "") (body : JVal)
    (status : Nat) (h200 : status ≠ 200) (h401 : status ≠ 401)
    (h422 : status ≠ 422) (h429 : status ≠ 429) :
    get_specific_ip_info (.str s) (.response 200 body) = ⟨some body, [], 1⟩ ∧
    get_specific_ip_info (.str s) (.response 401 body) = ⟨none, [msgAuth], 1⟩ ∧
    get_specific_ip_info (.str s) (.response 422 body) = ⟨none, [msgAddr (.str s)], 1⟩ ∧
    get_specific_ip_info (.str s) (.response 429 body) = ⟨none, [msgRate], 1⟩ ∧
    get_specific_ip_info (.str s) (.response status body) = ⟨none, [msgGeneric status], 1⟩ ∧
    get_current_ip_info (.response 200 body) = ⟨some body, [], 1⟩ ∧
    get_current_ip_info (.response 401 body) = ⟨none, [msgAuth], 1⟩ ∧
    get_current_ip_info (.response 429 body) = ⟨none, [msgRate], 1⟩ ∧
    get_current_ip_info (.response status body) = ⟨none, [msgGeneric status], 1⟩ ∧
    msgAuth ≠ msgRate ∧ msgAuth ≠ msgAddr (.str s) ∧ msgAuth ≠ msgGeneric status ∧
    msgRate ≠ msgAddr (.str s) ∧ msgRate ≠ msgGeneric status ∧
    msgAddr (.str s) ≠ msgGeneric status ∧
    msgGeneric status = "Error: API returned status code " ++ toString status := by
  refine ⟨by rw [gsii_of_valid s hs]; rfl, by rw [gsii_of_valid s hs]; rfl,
          by rw [gsii_of_valid s hs]; rfl, by rw [gsii_of_valid s hs]; rfl,
          ?_, rfl, rfl, rfl, ?_, by decide, ?_, ?_, ?_, ?_, ?_, rfl⟩
  · rw [gsii_of_valid s hs]
    simp [h200, h422, h401, h429]
  · simp [get_current_ip_info, h200, h401, h429]
  · exact lit_ne_concat msgAuth "Error: Invalid IP address format: " (pyStr (.str s))
      15 (by decide) (by decide)
  · exact lit_ne_concat msgAuth "Error: API returned status code " (toString status)
      7 (by decide) (by decide)
  · exact lit_ne_concat msgRate "Error: Invalid IP address format: " (pyStr (.str s))
      7 (by decide) (by decide)
  · exact lit_ne_concat msgRate "Error: API returned status code " (toString status)
      12 (by decide) (by decide)
  · exact concat_ne_concat "Error: Invalid IP address format: " (pyStr (.str s))
      "Error: API returned status code " (toString status) 7 (by decide) (by decide)
      (by decide)

/-- C5 witness: the mapping at a concrete address and status 503. -/
theorem transport_status_mapping_witness :
    get_specific_ip_info (.str "8.8.8.8") (.response 503 (.obj [])) =
      ⟨none, [msgGeneric 503], 1⟩ ∧
    get_current_ip_info (.response 200 (.obj [("ip_address", .str "8.8.8.8")])) =
      ⟨some (.obj [("ip_address", .str "8.8.8.8")]), [], 1⟩ :=
  ⟨(transport_status_mapping "8.8.8.8" (by decide) (.obj []) 503
      (by decide) (by decide) (by decide) (by decide)).2.2.2.2.1,
   (transport_status_mapping "8.8.8.8" (by decide)
      (.obj [("ip_address", .str "8.8.8.8")]) 503
      (by decide) (by decide) (by decide) (by decide)).2.2.2.2.2.1⟩

/-! ## Transformer shape: well-formedness and per-category equations -/

/-- A nested group key, when present, maps to a mapping (a genuine Python
dictionary makes `.get` calls on it safe). -/
def groupWF (d : PyDict) (g : String) : Bool :=
  match d.lookup g with
  | none => true
  | some (.obj _) => true
  | some _ => false

/-- The five nested group keys of the raw response. -/
def group_keys : List String := ["connection", "timezone", "security", "currency", "flag"]

/-- All five nested groups are mappings when present. -/
def groupsWF (d : PyDict) : Bool := group_keys.all (groupWF d)

/-- The `ip_address` value, when present, is a string. -/
def ipStrWF (d : PyDict) : Bool :=
  match d.lookup "ip_address" with
  | none => true
  | some (.str _) => true
  | some _ => false

/-- Whether an embedded result is a normal return (no exception). -/
def exceptIsOk {α : Type} : Except String α → Bool
  | .ok _ => true
  | .error _ => false

/-- The classifier label of an address string. -/
def ipVersionStr (t : String) : String :=
  if t.data.contains ':' then "IPv6"
  else if t.data.contains '.' then "IPv4"
  else "Unknown"

theorem determine_ip_version_str (t : String) :
    determine_ip_version (.str t) = .ok (ipVersionStr t) := by
  cases h1 : t.data.contains ':' <;> cases h2 : t.data.contains '.' <;>
    simp_all [determine_ip_version, pyContains, ipVersionStr,
      bind, Except.bind, pure, Except.pure]

theorem groupWF_dictGet (d : PyDict) (g : String) (h : groupWF d g = true) :
    ∃ gd, dictGet d g (.obj []) = .obj gd := by
  unfold groupWF at h
  unfold dictGet
  cases hl : d.lookup g with
  | none => exact ⟨[], rfl⟩
  | some v =>
      rw [hl] at h
      cases v with
      | obj gd => exact ⟨gd, rfl⟩
      | str s => exact absurd h (by simp)
      | num n => exact absurd h (by simp)
      | bool b => exact absurd h (by simp)
      | null => exact absurd h (by simp)

theorem ipStrWF_dictGet (d : PyDict) (h : ipStrWF d = true) :
    ∃ s0, dictGet d "ip_address" (.str "") = .str s0 := by
  unfold ipStrWF at h
  unfold dictGet
  cases hl : d.lookup "ip_address" with
  | none => exact ⟨"", rfl⟩
  | some v =>
      rw [hl] at h
      cases v with
      | str s => exact ⟨s, rfl⟩
      | obj gd => exact absurd h (by simp)
      | num n => exact absurd h (by simp)
      | bool b => exact absurd h (by simp)
      | null => exact absurd h (by simp)

theorem extract_basic_eq (d : PyDict) (s0 : String)
    (h : dictGet d "ip_address" (.str "") = .str s0) :
    extract_basic_info d =
      .ok [("IP Address", dictGet d "ip_address" (.str "N/A")),
           ("IP Version", .str (ipVersionStr s0)),
           ("City", dictGet d "city" (.str "N/A")),
           ("Region", dictGet d "region" (.str "N/A")),
           ("Country", dictGet d "country" (.str "N/A")),
           ("Country Code", dictGet d "country_code" (.str "N/A")),
           ("Continent", dictGet d "continent" (.str "N/A")),
           ("Postal Code", dictGet d "postal_code" (.str "N/A")),
           ("Latitude", .str (pyStr (dictGet d "latitude" (.str "N/A")))),
           ("Longitude", .str (pyStr (dictGet d "longitude" (.str "N/A"))))] := by
  simp only [extract_basic_info, h, determine_ip_version_str, bind, Except.bind,
    pure, Except.pure]

theorem extract_connection_eq (d : PyDict) (g : PyDict)
    (h : dictGet d "connection" (.obj []) = .obj g) :
    extract_connection_info d =
      .ok [("ISP", dictGet g "isp_name" (.str "N/A")),
           ("Organization", dictGet g "organization_name" (.str "N/A")),
           ("ASN", .str (pyStr (dictGet g "autonomous_system_number" (.str "N/A")))),
           ("ASN Organization", dictGet g "autonomous_system_organization" (.str "N/A")),
           ("Connection Type", dictGet g "connection_type" (.str "N/A"))] := by
  simp only [extract_connection_info, h, pyGet, bind, Except.bind, pure, Except.pure]

theorem extract_timezone_eq (d : PyDict) (g : PyDict)
    (h : dictGet d "timezone" (.obj []) = .obj g) :
    extract_timezone_info d =
      .ok [("Timezone Name", dictGet g "name" (.str "N/A")),
           ("Abbreviation", dictGet g "abbreviation" (.str "N/A")),
           ("GMT Offset", .str (pyStr (dictGet g "gmt_offset" (.str "N/A")))),
           ("Current Time", dictGet g "current_time" (.str "N/A")),
           ("Is DST", .str (pyStr (dictGet g "is_dst" (.str "N/A"))))] := by
  simp only [extract_timezone_info, h, pyGet, bind, Except.bind, pure, Except.pure]

theorem assess_obj_ok (g : PyDict) :
    ∃ tl, assess_threat_level (.obj g) = .ok tl := by
  simp only [assess_threat_level, pyGet, bind, Except.bind, pure, Except.pure]
  split
  · exact ⟨_, rfl⟩
  · exact ⟨_, rfl⟩
  · exact ⟨_, rfl⟩

theorem extract_security_eq (d : PyDict) (g : PyDict)
    (h : dictGet d "security" (.obj []) = .obj g) :
    ∃ tl, extract_security_info d =
      .ok [("Is VPN", dictGet g "is_vpn" (.bool false)),
           ("Is Proxy", dictGet g "is_proxy" (.bool false)),
           ("Is Tor", dictGet g "is_tor" (.bool false)),
           ("Is Relay", dictGet g "is_relay" (.bool false)),
           ("Threat Level", .str tl)] := by
  obtain ⟨tl, htl⟩ := assess_obj_ok g
  refine ⟨tl, ?_⟩
  simp only [extract_security_info, h, check_proxy, check_tor, check_relay, htl,
    pyGet, bind, Except.bind, pure, Except.pure]

theorem extract_currency_eq (d : PyDict) (g : PyDict)
    (h : dictGet d "currency" (.obj []) = .obj g) :
    extract_currency_info d =
      .ok [("Currency Name", dictGet g "currency_name" (.str "N/A")),
           ("Currency Code", dictGet g "currency_code" (.str "N/A")),
           ("Currency Symbol", dictGet g "currency_symbol" (.str "N/A"))] := by
  simp only [extract_currency_info, h, pyGet, bind, Except.bind, pure, Except.pure]

theorem extract_flag_eq (d : PyDict) (g : PyDict)
    (h : dictGet d "flag" (.obj []) = .obj g) :
    extract_flag_info d =
      .ok [("Flag Emoji", dictGet g "emoji" (.str "N/A")),
           ("Flag Unicode", dictGet g "unicode" (.str "N/A")),
           ("Flag PNG", dictGet g "png" (.str "N/A")),
           ("Flag SVG", dictGet g "svg" (.str "N/A"))] := by
  simp only [extract_flag_info, h, pyGet, bind, Except.bind, pure, Except.pure]

/-- The connection category when the group is absent. -/
def connection_defaults : PyDict :=
  [("ISP", .str "N/A"), ("Organization", .str "N/A"), ("ASN", .str "N/A"),
   ("ASN Organization", .str "N/A"), ("Connection Type", .str "N/A")]

/-- The timezone category when the group is absent. -/
def timezone_defaults : PyDict :=
  [("Timezone Name", .str "N/A"), ("Abbreviation", .str "N/A"),
   ("GMT Offset", .str "N/A"), ("Current Time", .str "N/A"), ("Is DST", .str "N/A")]

/-- The security category when the group is absent: the flags default to
`False` and the threat level to `Clean`, not to the `N/A` sentinel. -/
def security_defaults : PyDict :=
  [("Is VPN", .bool false), ("Is Proxy", .bool false), ("Is Tor", .bool false),
   ("Is Relay", .bool false), ("Threat Level", .str "Clean")]

/-- The currency category when the group is absent. -/
def currency_defaults : PyDict :=
  [("Currency Name", .str "N/A"), ("Currency Code", .str "N/A"),
   ("Currency Symbol", .str "N/A")]

/-- The flag category when the group is absent. -/
def flag_defaults : PyDict :=
  [("Flag Emoji", .str "N/A"), ("Flag Unicode", .str "N/A"),
   ("Flag PNG", .str "N/A"), ("Flag SVG", .str "N/A")]

/-- The whole output for a response whose only key is a string
`ip_address`: everything defaults except the address, its derived
version, and the security flags and threat level. -/
def ipOnlyCats (s : String) : CategorizedInfo :=
  [("basic",
    [("IP Address", .str s), ("IP Version", .str (ipVersionStr s)),
     ("City", .str "N/A"), ("Region", .str "N/A"), ("Country", .str "N/A"),
     ("Country Code", .str "N/A"), ("Continent", .str "N/A"),
     ("Postal Code", .str "N/A"), ("Latitude", .str "N/A"), ("Longitude", .str "N/A")]),
   ("connection", connection_defaults),
   ("timezone", timezone_defaults),
   ("security", security_defaults),
   ("currency", currency_defaults),
   ("flag", flag_defaults)]

/-- The fixed field labels of each category. -/
def category_labels : String → List String
  | "basic" => ["IP Address", "IP Version", "City", "Region", "Country",
                "Country Code", "Continent", "Postal Code", "Latitude", "Longitude"]
  | "connection" => ["ISP", "Organization", "ASN", "ASN Organization", "Connection Type"]
  | "timezone" => ["Timezone Name", "Abbreviation", "GMT Offset", "Current Time", "Is DST"]
  | "security" => ["Is VPN", "Is Proxy", "Is Tor", "Is Relay", "Threat Level"]
  | "currency" => ["Currency Name", "Currency Code", "Currency Symbol"]
  | "flag" => ["Flag Emoji", "Flag Unicode", "Flag PNG", "Flag SVG"]
  | _ => []

/-- C1 (amended): a null, empty or `ip_address`-less response yields the
empty mapping; a response containing `ip_address` whose address value is
a string and whose present nested groups are mappings yields exactly the
six category keys in order, each category fully populated with its fixed
field labels. -/
theorem transform_gate_and_shape (data : Option PyDict) :
    (validate_response data = false → process_all_data data = .ok []) ∧
    (∀ d, data = some d → (d.lookup "ip_address").isSome = true →
      ipStrWF d = true → groupsWF d = true →
      ∃ cats, process_all_data data = .ok cats ∧
        cats.map Prod.fst = ["basic", "connection", "timezone", "security", "currency", "flag"] ∧
        ∀ c fields, (c, fields) ∈ cats → fields.map Prod.fst = category_labels c) := by
  constructor
  · intro hv
    simp [process_all_data, hv, pure, Except.pure]
  · rintro d rfl hip hipstr hgrp
    obtain ⟨s0, hs0⟩ := ipStrWF_dictGet d hipstr
    have hg : ∀ g ∈ group_keys, groupWF d g = true := by
      intro g hgmem
      exact List.all_eq_true.mp hgrp g hgmem
    obtain ⟨g1, h1⟩ := groupWF_dictGet d "connection" (hg _ (by simp [group_keys]))
    obtain ⟨g2, h2⟩ := groupWF_dictGet d "timezone" (hg _ (by simp [group_keys]))
    obtain ⟨g3, h3⟩ := groupWF_dictGet d "security" (hg _ (by simp [group_keys]))
    obtain ⟨g4, h4⟩ := groupWF_dictGet d "currency" (hg _ (by simp [group_keys]))
    obtain ⟨g5, h5⟩ := groupWF_dictGet d "flag" (hg _ (by simp [group_keys]))
    obtain ⟨tl, hsec⟩ := extract_security_eq d g3 h3
    have hval : validate_response (some d) = true := by
      unfold validate_response
      cases d with
      | nil => simp at hip
      | cons p rest =>
          simp only [List.isEmpty, if_false, required_fields, List.all]
          simp [hip]
    have hall : process_all_data (some d) = .ok
        [("basic",
          [("IP Address", dictGet d "ip_address" (.str "N/A")),
           ("IP Version", .str (ipVersionStr s0)),
           ("City", dictGet d "city" (.str "N/A")),
           ("Region", dictGet d "region" (.str "N/A")),
           ("Country", dictGet d "country" (.str "N/A")),
           ("Country Code", dictGet d "country_code" (.str "N/A")),
           ("Continent", dictGet d "continent" (.str "N/A")),
           ("Postal Code", dictGet d "postal_code" (.str "N/A")),
           ("Latitude", .str (pyStr (dictGet d "latitude" (.str "N/A")))),
           ("Longitude", .str (pyStr (dictGet d "longitude" (.str "N/A"))))]),
         ("connection",
          [("ISP", dictGet g1 "isp_name" (.str "N/A")),
           ("Organization", dictGet g1 "organization_name" (.str "N/A")),
           ("ASN", .str (pyStr (dictGet g1 "autonomous_system_number" (.str "N/A")))),
           ("ASN Organization", dictGet g1 "autonomous_system_organization" (.str "N/A")),
           ("Connection Type", dictGet g1 "connection_type" (.str "N/A"))]),
         ("timezone",
          [("Timezone Name", dictGet g2 "name" (.str "N/A")),
           ("Abbreviation", dictGet g2 "abbreviation" (.str "N/A")),
           ("GMT Offset", .str (pyStr (dictGet g2 "gmt_offset" (.str "N/A")))),
           ("Current Time", dictGet g2 "current_time" (.str "N/A")),
           ("Is DST", .str (pyStr (dictGet g2 "is_dst" (.str "N/A"))))]),
         ("security",
          [("Is VPN", dictGet g3 "is_vpn" (.bool false)),
           ("Is Proxy", dictGet g3 "is_proxy" (.bool false)),
           ("Is Tor", dictGet g3 "is_tor" (.bool false)),
           ("Is Relay", dictGet g3 "is_relay" (.bool false)),
           ("Threat Level", .str tl)]),
         ("currency",
          [("Currency Name", dictGet g4 "currency_name" (.str "N/A")),
           ("Currency Code", dictGet g4 "currency_code" (.str "N/A")),
           ("Currency Symbol", dictGet g4 "currency_symbol" (.str "N/A"))]),
         ("flag",
          [("Flag Emoji", dictGet g5 "emoji" (.str "N/A")),
           ("Flag Unicode", dictGet g5 "unicode" (.str "N/A")),
           ("Flag PNG", dictGet g5 "png" (.str "N/A")),
           ("Flag SVG", dictGet g5 "svg" (.str "N/A"))])] := by
      simp only [process_all_data, hval, not_true, if_false,
        extract_basic_eq d s0 hs0, extract_connection_eq d g1 h1,
        extract_timezone_eq d g2 h2, hsec, extract_currency_eq d g4 h4,
        extract_flag_eq d g5 h5, bind, Except.bind, pure, Except.pure]
    refine ⟨_, hall, rfl, ?_⟩
    intro c fields hm
    simp only [List.mem_cons, List.not_mem_nil, or_false, Prod.mk.injEq] at hm
    rcases hm with ⟨rfl, rfl⟩ | ⟨rfl, rfl⟩ | ⟨rfl, rfl⟩ | ⟨rfl, rfl⟩ | ⟨rfl, rfl⟩ | ⟨rfl, rfl⟩ <;>
      rfl

/-- C1 witness: the clauses at a concrete invalid and a concrete valid
response. -/
theorem transform_gate_and_shape_witness :
    process_all_data (some [("city", .str "Test")]) = .ok [] ∧
    ∃ cats, process_all_data (some [("ip_address", .str "8.8.8.8")]) = .ok cats ∧
      cats.map Prod.fst = ["basic", "connection", "timezone", "security", "currency", "flag"] ∧
      ∀ c fields, (c, fields) ∈ cats → fields.map Prod.fst = category_labels c :=
  ⟨(transform_gate_and_shape (some [("city", .str "Test")])).1 rfl,
   (transform_gate_and_shape (some [("ip_address", .str "8.8.8.8")])).2
     [("ip_address", .str "8.8.8.8")] rfl rfl rfl rfl⟩

/-- C1 counterexample: the claim as stated fails for responses containing
`ip_address`: a non-mapping nested group makes the transformation raise
(AttributeError), and a non-string address value makes the version
classifier raise (TypeError) — no six-category mapping is returned. -/
theorem transform_gate_and_shape_counterexample :
    process_all_data (some [("ip_address", .str "1.2.3.4"), ("connection", .str "oops")]) =
      .error "AttributeError: get called on a non-dict value" ∧
    process_all_data (some [("ip_address", .num 42)]) =
      .error "TypeError: argument is not iterable" :=
  ⟨rfl, rfl⟩

/-- C4 (amended): for a response whose only key is `ip_address` with a
string value, no exception occurs and every field is the `N/A` sentinel
except the address itself, its derived `IP Version`, and the security
category, whose flags are `False` with threat level `Clean`. -/
theorem ip_only_response_defaults (s : String) :
    process_all_data (some [("ip_address", .str s)]) = .ok (ipOnlyCats s) := by
  have hb := extract_basic_eq [("ip_address", .str s)] s rfl
  simp only [process_all_data, validate_response, required_fields, List.isEmpty,
    List.all, List.lookup, hb, bind, Except.bind, pure, Except.pure, ipOnlyCats]
  rfl

/-- C4 counterexample: the claim as stated is false: already for the
minimal response the `Is VPN` field is `False` and the threat level is
`Clean`, not the `N/A` sentinel (and `IP Version` is a classifier label);
moreover a non-string `ip_address` value raises. -/
theorem ip_only_response_defaults_counterexample :
    extract_security_info [("ip_address", .str "1.1.1.1")] = .ok security_defaults ∧
    security_defaults.lookup "Is VPN" = some (.bool false) ∧
    JVal.bool false ≠ .str "N/A" ∧
    security_defaults.lookup "Threat Level" = some (.str "Clean") ∧
    JVal.str "Clean" ≠ .str "N/A" ∧
    process_all_data (some [("ip_address", .bool true)]) =
      .error "TypeError: argument is not iterable" :=
  ⟨rfl, rfl, fun h => JVal.noConfusion h, rfl,
   by intro h; injection h with h2; exact absurd h2 (by decide), rfl⟩

/-- C7 (amended): each category extraction is total when its optional
data is well formed — the basic category needs a string (or absent)
`ip_address`, each group category needs its group key absent or a
mapping; an absent group yields the category defaults (`N/A` sentinels,
except the security flags, which default to `False` with threat level
`Clean`); and under all those conditions the whole transformer raises no
exception. -/
theorem category_extraction_totality (d : PyDict) :
    (ipStrWF d = true → exceptIsOk (extract_basic_info d) = true) ∧
    (groupWF d "connection" = true → exceptIsOk (extract_connection_info d) = true) ∧
    (groupWF d "timezone" = true → exceptIsOk (extract_timezone_info d) = true) ∧
    (groupWF d "security" = true → exceptIsOk (extract_security_info d) = true) ∧
    (groupWF d "currency" = true → exceptIsOk (extract_currency_info d) = true) ∧
    (groupWF d "flag" = true → exceptIsOk (extract_flag_info d) = true) ∧
    (d.lookup "connection" = none → extract_connection_info d = .ok connection_defaults) ∧
    (d.lookup "timezone" = none → extract_timezone_info d = .ok timezone_defaults) ∧
    (d.lookup "security" = none → extract_security_info d = .ok security_defaults) ∧
    (d.lookup "currency" = none → extract_currency_info d = .ok currency_defaults) ∧
    (d.lookup "flag" = none → extract_flag_info d = .ok flag_defaults) ∧
    (ipStrWF d = true → groupsWF d = true →
      exceptIsOk (process_all_data (some d)) = true) := by
  refine ⟨?_, ?_, ?_, ?_, ?_, ?_, ?_, ?_, ?_, ?_, ?_, ?_⟩
  · intro h
    obtain ⟨s0, hs0⟩ := ipStrWF_dictGet d h
    rw [extract_basic_eq d s0 hs0]
    rfl
  · intro h
    obtain ⟨g, hgd⟩ := groupWF_dictGet d "connection" h
    rw [extract_connection_eq d g hgd]
    rfl
  · intro h
    obtain ⟨g, hgd⟩ := groupWF_dictGet d "timezone" h
    rw [extract_timezone_eq d g hgd]
    rfl
  · intro h
    obtain ⟨g, hgd⟩ := groupWF_dictGet d "security" h
    obtain ⟨tl, hsec⟩ := extract_security_eq d g hgd
    rw [hsec]
    rfl
  · intro h
    obtain ⟨g, hgd⟩ := groupWF_dictGet d "currency" h
    rw [extract_currency_eq d g hgd]
    rfl
  · intro h
    obtain ⟨g, hgd⟩ := groupWF_dictGet d "flag" h
    rw [extract_flag_eq d g hgd]
    rfl
  · intro h
    have hgd : dictGet d "connection" (.obj []) = .obj [] := by
      unfold dictGet
      rw [h]
    rw [extract_connection_eq d [] hgd]
    rfl
  · intro h
    have hgd : dictGet d "timezone" (.obj []) = .obj [] := by
      unfold dictGet
      rw [h]
    rw [extract_timezone_eq d [] hgd]
    rfl
  · intro h
    have hgd : dictGet d "security" (.obj []) = .obj [] := by
      unfold dictGet
      rw [h]
    simp only [extract_security_info, hgd, check_proxy, check_tor, check_relay,
      assess_threat_level, pyGet, bind, Except.bind, pure, Except.pure]
    rfl
  · intro h
    have hgd : dictGet d "currency" (.obj []) = .obj [] := by
      unfold dictGet
      rw [h]
    rw [extract_currency_eq d [] hgd]
    rfl
  · intro h
    have hgd : dictGet d "flag" (.obj []) = .obj [] := by
      unfold dictGet
      rw [h]
    rw [extract_flag_eq d [] hgd]
    rfl
  · intro hipstr hgrp
    by_cases hval : validate_response (some d) = true
    · obtain ⟨cats, hcats, _, _⟩ :=
        (transform_gate_and_shape (some d)).2 d rfl
          (by
            revert hval
            unfold validate_response required_fields
            cases d with
            | nil => simp
            | cons p rest => simp [List.all])
          hipstr hgrp
      rw [hcats]
      rfl
    · rw [(transform_gate_and_shape (some d)).1 (by simpa using hval)]
      rfl

/-- C7 witness: totality at a concrete response with an absent timezone
group and a present connection group. -/
theorem category_extraction_totality_witness :
    exceptIsOk (extract_connection_info
      [("ip_address", .str "8.8.8.8"), ("connection", .obj [("isp_name", .str "Google LLC")])]) = true ∧
    extract_timezone_info
      [("ip_address", .str "8.8.8.8"), ("connection", .obj [("isp_name", .str "Google LLC")])] =
      .ok timezone_defaults ∧
    exceptIsOk (process_all_data
      (some [("ip_address", .str "8.8.8.8"), ("connection", .obj [("isp_name", .str "Google LLC")])])) = true :=
  ⟨(category_extraction_totality _).2.1 rfl,
   (category_extraction_totality _).2.2.2.2.2.2.2.1 rfl,
   (category_extraction_totality _).2.2.2.2.2.2.2.2.2.2.2 rfl rfl⟩

/-- C7 counterexample: the claim as stated is false: a malformed optional
field — a non-mapping `connection` group — makes the extraction raise
(AttributeError) instead of returning, and the security sub-fields do not
default to the `N/A` sentinel but to `False`/`Clean`. -/
theorem category_extraction_totality_counterexample :
    extract_connection_info [("ip_address", .str "1.2.3.4"), ("connection", .str "oops")] =
      .error "AttributeError: get called on a non-dict value" ∧
    extract_security_info [("ip_address", .str "1.2.3.4")] = .ok security_defaults ∧
    security_defaults.lookup "Is Proxy" = some (.bool false) ∧
    JVal.bool false ≠ .str "N/A" :=
  ⟨rfl, rfl, rfl, fun h => JVal.noConfusion h⟩

/-! ## JSON round trip: well-formedness of Python dictionaries -/

/-- Whether `k` occurs among the keys of `d`. -/
def keyMem (k : String) : PyDict → Bool
  | [] => false
  | (k0, _) :: rest => k0 == k || keyMem k rest

/-- The keys of `d` are pairwise distinct (every genuine Python
dictionary satisfies this; the association-list embedding does not force
it). -/
def keysNodup : PyDict → Bool
  | [] => true
  | (k, _) :: rest => !keyMem k rest && keysNodup rest

mutual
/-- Every object reachable in the value has pairwise distinct keys. -/
def jwf : JVal → Bool
  | .obj fields => keysNodup fields && jwfL fields
  | _ => true
/-- The predicate `jwf` on every value of a field list. -/
def jwfL : List (String × JVal) → Bool
  | [] => true
  | (_, v) :: rest => jwf v && jwfL rest
end

/-- A raw response dictionary is well formed when it has distinct keys and
all nested objects do as well. -/
def dictWF (d : PyDict) : Bool := keysNodup d && jwfL d

mutual
/-- Structural size of a value, a lower bound for the parsing fuel. -/
def jsize : JVal → Nat
  | .obj fields => 1 + jsizeL fields
  | _ => 1
/-- Structural size of a field list. -/
def jsizeL : List (String × JVal) → Nat
  | [] => 0
  | (_, v) :: rest => 1 + jsize v + jsizeL rest
end

theorem keyMem_append (x : String) (a b : PyDict) :
    keyMem x (a ++ b) = (keyMem x a || keyMem x b) := by
  induction a with
  | nil => simp [keyMem]
  | cons p rest ih =>
      obtain ⟨k0, v0⟩ := p
      simp [keyMem, ih, Bool.or_assoc]

theorem keysNodup_of_middle (acc : PyDict) (k : String) (v : JVal) (restf : PyDict)
    (h : keysNodup (acc ++ (k, v) :: restf) = true) : keyMem k acc = false := by
  induction acc with
  | nil => rfl
  | cons p rest ih =>
      obtain ⟨k0, v0⟩ := p
      simp only [List.cons_append, keysNodup, Bool.and_eq_true, Bool.not_eq_true'] at h
      obtain ⟨h1, h2⟩ := h
      simp only [List.append_eq] at h1 h2
      rw [keyMem_append] at h1
      simp only [Bool.or_eq_false_iff, keyMem] at h1
      have hne : k ≠ k0 := beq_eq_false_iff_ne.mp h1.2.1
      have hk : (k0 == k) = false := beq_eq_false_iff_ne.mpr (fun he => hne he.symm)
      simp only [keyMem, hk, Bool.false_or]
      exact ih h2

theorem dictInsert_append (d : PyDict) (k : String) (v : JVal)
    (h : keyMem k d = false) : dictInsert d k v = d ++ [(k, v)] := by
  induction d with
  | nil => rfl
  | cons p rest ih =>
      obtain ⟨k0, v0⟩ := p
      simp only [keyMem, Bool.or_eq_false_iff] at h
      unfold dictInsert
      rw [if_neg (by
        intro he
        rw [he] at h
        simp at h), ih h.2]
      rfl

theorem jwfL_lookup (d : PyDict) (k : String) (v : JVal)
    (hwf : jwfL d = true) (h : d.lookup k = some v) : jwf v = true := by
  induction d with
  | nil => cases h
  | cons p rest ih =>
      obtain ⟨k0, v0⟩ := p
      unfold jwfL at hwf
      simp only [Bool.and_eq_true] at hwf
      cases hb : (k == k0) with
      | true =>
          simp only [List.lookup, hb, Option.some.injEq] at h
          exact h ▸ hwf.1
      | false =>
          simp only [List.lookup, hb] at h
          exact ih hwf.2 h

theorem dictGet_jwf (d : PyDict) (k : String) (dflt : JVal)
    (hwf : jwfL d = true) (hd : jwf dflt = true) :
    jwf (dictGet d k dflt) = true := by
  unfold dictGet
  cases h : d.lookup k with
  | none => exact hd
  | some v => exact jwfL_lookup d k v hwf h

/-! ## JSON round trip: decimal digits -/

/-- Enumeration of the ten digit characters. -/
def isDigitChar (c : Char) : Prop :=
  c = '0' ∨ c = '1' ∨ c = '2' ∨ c = '3' ∨ c = '4' ∨
  c = '5' ∨ c = '6' ∨ c = '7' ∨ c = '8' ∨ c = '9'

theorem digitChar_cases (n : Nat) (h : n < 10) : isDigitChar (digitChar n) := by
  interval_cases n <;> simp [digitChar, isDigitChar]

theorem isDigitChar_isDigit (c : Char) (h : isDigitChar c) : c.isDigit = true := by
  rcases h with rfl | rfl | rfl | rfl | rfl | rfl | rfl | rfl | rfl | rfl <;> decide

theorem isDigitChar_not_special (c : Char) (h : isDigitChar c) :
    isWsChar c = false ∧ ¬(c = '"') ∧ ¬(c = '\x7b') ∧ ¬(c = 't') ∧
    ¬(c = 'f') ∧ ¬(c = 'n') ∧ ¬(c = '-') := by
  rcases h with rfl | rfl | rfl | rfl | rfl | rfl | rfl | rfl | rfl | rfl <;>
    exact ⟨by decide, by decide, by decide, by decide, by decide, by decide, by decide⟩

theorem digitVal_digitChar (n : Nat) (h : n < 10) : (digitChar n).toNat - 48 = n := by
  interval_cases n <;> decide

theorem natDump_cons (n : Nat) : ∃ c tail, natDump n = c :: tail ∧ isDigitChar c := by
  induction n using Nat.strong_induction_on with
  | _ n ih =>
      by_cases h : n < 10
      · exact ⟨digitChar n, [], by rw [natDump, dif_pos h], digitChar_cases n h⟩
      · obtain ⟨c, tail, hct, hdc⟩ := ih (n / 10) (Nat.div_lt_self (by omega) (by omega))
        exact ⟨c, tail ++ [digitChar (n % 10)],
          by rw [natDump, dif_neg h, hct]; rfl, hdc⟩

theorem parseDigitsAux_cons_digit (c : Char) (hd : c.isDigit = true)
    (r : List Char) (acc : Nat) :
    parseDigitsAux (c :: r) acc = parseDigitsAux r (acc * 10 + (c.toNat - 48)) := by
  conv_lhs => rw [parseDigitsAux]
  rw [if_pos hd]

theorem parseDigitsAux_natDump (n : Nat) : ∀ (acc : Nat) (rest : List Char),
    parseDigitsAux (natDump n ++ rest) acc =
      parseDigitsAux rest (acc * 10 ^ (natDump n).length + n) := by
  induction n using Nat.strong_induction_on with
  | _ n ih =>
      intro acc rest
      by_cases h : n < 10
      · rw [natDump, dif_pos h]
        show parseDigitsAux (digitChar n :: rest) acc = _
        rw [parseDigitsAux_cons_digit _ (isDigitChar_isDigit _ (digitChar_cases n h)),
          digitVal_digitChar n h]
        norm_num
      · rw [natDump, dif_neg h, List.append_assoc,
          ih (n / 10) (Nat.div_lt_self (by omega) (by omega))]
        show parseDigitsAux (digitChar (n % 10) :: rest) _ = _
        rw [parseDigitsAux_cons_digit _
            (isDigitChar_isDigit _ (digitChar_cases _ (Nat.mod_lt n (by omega)))),
          digitVal_digitChar _ (Nat.mod_lt n (by omega))]
        rw [List.length_append, List.length_singleton]
        have harith : (acc * 10 ^ (natDump (n / 10)).length + n / 10) * 10 + n % 10 =
            acc * 10 ^ ((natDump (n / 10)).length + 1) + n := by
          rw [pow_succ]
          have hmod := Nat.div_add_mod n 10
          ring_nf
          omega
        rw [harith]

/-- A continuation on which digit parsing stops. -/
def nonDigitStart : List Char → Prop
  | [] => True
  | c :: _ => c.isDigit = false

theorem parseDigitsAux_stop (rest : List Char) (m : Nat) (h : nonDigitStart rest) :
    parseDigitsAux rest m = (m, rest) := by
  cases rest with
  | nil => rfl
  | cons c r =>
      unfold parseDigitsAux
      rw [if_neg (by simp [nonDigitStart] at h; simp [h])]

theorem parseDigitsAux_natDump_top (n : Nat) (rest : List Char) (h : nonDigitStart rest) :
    parseDigitsAux (natDump n ++ rest) 0 = (n, rest) := by
  rw [parseDigitsAux_natDump, parseDigitsAux_stop rest _ h]
  norm_num

/-! ## JSON round trip: string escapes -/

theorem hexVal_hexChar (m : Nat) (h : m < 16) : hexVal (hexChar m) = m := by
  interval_cases m <;> decide

theorem isHexChar_hexChar (m : Nat) (h : m < 16) : isHexChar (hexChar m) = true := by
  interval_cases m <;> decide

theorem parseStringChars_close (rest : List Char) :
    parseStringChars ('"' :: rest) = some ([], rest) := by
  rw [parseStringChars.eq_def]
  simp

theorem parseStringChars_esc (e c2 : Char) (cs tail rest : List Char)
    (he : unescape e = some c2) (he2 : ¬ e = 'u')
    (ih : parseStringChars tail = some (cs, rest)) :
    parseStringChars ('\\' :: e :: tail) = some (c2 :: cs, rest) := by
  rw [parseStringChars.eq_def]
  simp [he2, he, ih]

theorem parseStringChars_plain (c : Char) (cs tail rest : List Char)
    (h1 : ¬ c = '"') (h2 : ¬ c = '\\')
    (ih : parseStringChars tail = some (cs, rest)) :
    parseStringChars (c :: tail) = some (c :: cs, rest) := by
  rw [parseStringChars.eq_def]
  simp [h1, h2, ih]

theorem parseStringChars_hex (c : Char) (cs tail rest : List Char)
    (hc : c.toNat < 32)
    (ih : parseStringChars tail = some (cs, rest)) :
    parseStringChars
      ('\\' :: 'u' :: '0' :: '0' :: hexChar (c.toNat / 16) :: hexChar (c.toNat % 16) :: tail) =
      some (c :: cs, rest) := by
  have h0 : isHexChar '0' = true := by decide
  have h0v : hexVal '0' = 0 := by decide
  have hval : ((hexVal '0' * 16 + hexVal '0') * 16 + hexVal (hexChar (c.toNat / 16))) * 16 +
      hexVal (hexChar (c.toNat % 16)) = c.toNat := by
    rw [h0v, hexVal_hexChar _ (by omega), hexVal_hexChar _ (by omega)]
    omega
  rw [parseStringChars.eq_def]
  simp only [ih, h0, isHexChar_hexChar _ (show c.toNat / 16 < 16 by omega),
    isHexChar_hexChar _ (show c.toNat % 16 < 16 by omega)]
  simp [hval, Char.ofNat_toNat]

theorem parseStringChars_escapeL (l rest : List Char) :
    parseStringChars (escapeL l ++ '"' :: rest) = some (l, rest) := by
  induction l with
  | nil => exact parseStringChars_close rest
  | cons c cs ih =>
      show parseStringChars ((escapeChar c ++ escapeL cs) ++ '"' :: rest) = _
      rw [List.append_assoc]
      unfold escapeChar
      by_cases h1 : c = '"'
      · subst h1
        rw [if_pos rfl]
        exact parseStringChars_esc '"' '"' cs _ rest rfl (by decide) ih
      · rw [if_neg h1]
        by_cases h2 : c = '\\'
        · subst h2
          rw [if_pos rfl]
          exact parseStringChars_esc '\\' '\\' cs _ rest rfl (by decide) ih
        · rw [if_neg h2]
          by_cases h3 : c = '\n'
          · subst h3
            rw [if_pos rfl]
            exact parseStringChars_esc 'n' '\n' cs _ rest rfl (by decide) ih
          · rw [if_neg h3]
            by_cases h4 : c = '\t'
            · subst h4
              rw [if_pos rfl]
              exact parseStringChars_esc 't' '\t' cs _ rest rfl (by decide) ih
            · rw [if_neg h4]
              by_cases h5 : c = '\r'
              · subst h5
                rw [if_pos rfl]
                exact parseStringChars_esc 'r' '\r' cs _ rest rfl (by decide) ih
              · rw [if_neg h5]
                by_cases h6 : c = Char.ofNat 8
                · subst h6
                  rw [if_pos rfl]
                  exact parseStringChars_esc 'b' (Char.ofNat 8) cs _ rest rfl (by decide) ih
                · rw [if_neg h6]
                  by_cases h7 : c = Char.ofNat 12
                  · subst h7
                    rw [if_pos rfl]
                    exact parseStringChars_esc 'f' (Char.ofNat 12) cs _ rest rfl (by decide) ih
                  · rw [if_neg h7]
                    by_cases h8 : c.toNat < 32
                    · rw [if_pos h8]
                      exact parseStringChars_hex c cs _ rest h8 ih
                    · rw [if_neg h8]
                      exact parseStringChars_plain c cs _ rest h1 h2 ih

/-! ## JSON round trip: whitespace -/

theorem skipWs_cons_ws (c : Char) (h : isWsChar c = true) (cs : List Char) :
    skipWs (c :: cs) = skipWs cs := by
  simp [skipWs, List.dropWhile, h]

theorem skipWs_cons_not (c : Char) (h : isWsChar c = false) (cs : List Char) :
    skipWs (c :: cs) = c :: cs := by
  simp [skipWs, List.dropWhile, h]

theorem skipWs_pad (lvl : Nat) (cs : List Char) :
    skipWs (padC lvl ++ cs) = skipWs cs := by
  unfold padC
  induction (4 * lvl) with
  | zero => rfl
  | succ m ih =>
      rw [List.replicate_succ, List.cons_append, skipWs_cons_ws ' ' (by decide), ih]

theorem parseValCore_quote (f : Nat) (rest : List Char) :
    parseValCore f ('"' :: rest) = parseStrLit rest := by
  rw [parseValCore.eq_def]
  rfl

theorem parseValCore_brace (f : Nat) (rest : List Char) :
    parseValCore f ('\x7b' :: rest) = parseObjBody f rest := by
  rw [parseValCore.eq_def]
  rfl

theorem parseValCore_t (f : Nat) (rest : List Char) :
    parseValCore f ('t' :: rest) = parseTrueTail rest := by
  rw [parseValCore.eq_def]
  rfl

theorem parseValCore_f (f : Nat) (rest : List Char) :
    parseValCore f ('f' :: rest) = parseFalseTail rest := by
  rw [parseValCore.eq_def]
  rfl

theorem parseValCore_n (f : Nat) (rest : List Char) :
    parseValCore f ('n' :: rest) = parseNullTail rest := by
  rw [parseValCore.eq_def]
  rfl

theorem parseValCore_minus (f : Nat) (rest : List Char) :
    parseValCore f ('-' :: rest) = parseNegNum rest := by
  rw [parseValCore.eq_def]
  rfl

theorem parseValCore_digit (f : Nat) (c : Char) (rest : List Char) (h : isDigitChar c) :
    parseValCore f (c :: rest) =
      some (.num ((parseDigitsAux rest (c.toNat - 48)).1 : Int),
            (parseDigitsAux rest (c.toNat - 48)).2) := by
  obtain ⟨_, hq, hb, ht, hf, hn, hm⟩ := isDigitChar_not_special c h
  rw [parseValCore.eq_def]
  simp only [if_neg hq, if_neg hb, if_neg ht, if_neg hf, if_neg hn, if_neg hm,
    if_pos (isDigitChar_isDigit c h)]

theorem jsize_pos (v : JVal) : 1 ≤ jsize v := by
  cases v <;> simp [jsize]

theorem parseDigitsAux_natDump_head (m : Nat) (c : Char) (tail rest : List Char)
    (hm : natDump m = c :: tail) (hd : c.isDigit = true) (hnd : nonDigitStart rest) :
    parseDigitsAux (tail ++ rest) (c.toNat - 48) = (m, rest) := by
  have h := parseDigitsAux_natDump_top m rest hnd
  rw [hm] at h
  rw [List.cons_append, parseDigitsAux_cons_digit c hd] at h
  simpa using h

theorem parseEntriesCore_quote (f : Nat) (rest : List Char) (acc : PyDict) :
    parseEntriesCore f ('"' :: rest) acc =
      match parseStringChars rest with
      | some (k, r1) =>
        match skipWs r1 with
        | ':' :: r2 =>
          match parseVal f r2 with
          | some (v, r3) =>
            match skipWs r3 with
            | ',' :: r4 => parseEntries f r4 (dictInsert acc (String.mk k) v)
            | '\x7d' :: r4 => some (.obj (dictInsert acc (String.mk k) v), r4)
            | _ => none
          | none => none
        | _ => none
      | none => none := by
  rw [parseEntriesCore.eq_def]
  rfl

theorem dumpEntries_head (lvl : Nat) (k : String) (w : JVal) (restf : PyDict)
    (tail : List Char) :
    ∃ X, skipWs (dumpEntries lvl ((k, w) :: restf) ++ tail) = '"' :: X := by
  cases restf with
  | nil =>
      show ∃ X, skipWs ((padC lvl ++ ('"' :: escapeL k.data ++ ['"']) ++
        ':' :: ' ' :: dumpVal lvl w) ++ tail) = _
      simp only [List.cons_append, List.nil_append, List.append_assoc]
      rw [skipWs_pad, skipWs_cons_not '"' (by decide)]
      exact ⟨_, rfl⟩
  | cons p2 restf2 =>
      show ∃ X, skipWs ((padC lvl ++ ('"' :: escapeL k.data ++ ['"']) ++
        ':' :: ' ' :: dumpVal lvl w ++ ',' :: '\n' :: dumpEntries lvl (p2 :: restf2)) ++ tail) = _
      simp only [List.cons_append, List.nil_append, List.append_assoc]
      rw [skipWs_pad, skipWs_cons_not '"' (by decide)]
      exact ⟨_, rfl⟩

/-- The printer-parser round trip at the heart of the file-export claim:
with enough fuel, parsing the dumped text of a well-formed value (and of a
non-empty member list) consumes exactly that text. -/
theorem parse_dump_all : ∀ fuel : Nat,
    (∀ lvl v rest, jsize v ≤ fuel → jwf v = true → nonDigitStart rest →
      parseVal fuel (dumpVal lvl v ++ rest) = some (v, rest)) ∧
    (∀ lvl lvl2 fields acc rest, jsizeL fields ≤ fuel → fields ≠ [] →
      jwfL fields = true → keysNodup (acc ++ fields) = true →
      parseEntriesCore fuel
        (skipWs (dumpEntries lvl fields ++ '\n' :: padC lvl2 ++ '\x7d' :: rest)) acc =
        some (.obj (acc ++ fields), rest)) := by
  intro fuel
  induction fuel using Nat.strong_induction_on with
  | _ fuel IH =>
  have hvalpart : ∀ lvl v rest, jsize v ≤ fuel → jwf v = true → nonDigitStart rest →
      parseVal fuel (dumpVal lvl v ++ rest) = some (v, rest) := by
    intro lvl v rest hsz hwf hnd
    obtain ⟨f, rfl⟩ : ∃ f, fuel = f + 1 :=
      ⟨fuel - 1, by have := jsize_pos v; omega⟩
    rw [parseVal.eq_def]
    cases v with
    | null =>
        show parseValCore f (skipWs (['n', 'u', 'l', 'l'] ++ rest)) = _
        simp only [List.cons_append, List.nil_append]
        rw [skipWs_cons_not 'n' (by decide), parseValCore_n]
        rfl
    | bool b =>
        cases b with
        | true =>
            show parseValCore f (skipWs (['t', 'r', 'u', 'e'] ++ rest)) = _
            simp only [List.cons_append, List.nil_append]
            rw [skipWs_cons_not 't' (by decide), parseValCore_t]
            rfl
        | false =>
            show parseValCore f (skipWs (['f', 'a', 'l', 's', 'e'] ++ rest)) = _
            simp only [List.cons_append, List.nil_append]
            rw [skipWs_cons_not 'f' (by decide), parseValCore_f]
            rfl
    | str s =>
        show parseValCore f (skipWs (('"' :: escapeL s.data ++ ['"']) ++ rest)) = _
        simp only [List.cons_append, List.nil_append, List.append_assoc]
        rw [skipWs_cons_not '"' (by decide), parseValCore_quote]
        unfold parseStrLit
        rw [parseStringChars_escapeL s.data rest]
    | num n =>
        show parseValCore f (skipWs (intDump n ++ rest)) = _
        unfold intDump
        by_cases hneg : n < 0
        · rw [if_pos hneg]
          obtain ⟨c, tail, hct, hdc⟩ := natDump_cons n.natAbs
          simp only [List.cons_append]
          rw [skipWs_cons_not '-' (by decide), parseValCore_minus]
          unfold parseNegNum
          rw [hct]
          simp only [List.cons_append]
          rw [if_pos (isDigitChar_isDigit c hdc)]
          rw [parseDigitsAux_natDump_head n.natAbs c tail rest hct
            (isDigitChar_isDigit c hdc) hnd]
          have h2 : -((n.natAbs : Nat) : Int) = n := by omega
          simp only [h2]
        · rw [if_neg hneg]
          obtain ⟨c, tail, hct, hdc⟩ := natDump_cons n.toNat
          rw [hct]
          simp only [List.cons_append]
          rw [skipWs_cons_not c (isDigitChar_not_special c hdc).1,
            parseValCore_digit f c _ hdc]
          rw [parseDigitsAux_natDump_head n.toNat c tail rest hct
            (isDigitChar_isDigit c hdc) hnd]
          have h2 : ((n.toNat : Nat) : Int) = n := by omega
          simp only [h2]
    | obj fields =>
        cases fields with
        | nil =>
            show parseValCore f (skipWs (['\x7b', '\x7d'] ++ rest)) = _
            simp only [List.cons_append, List.nil_append]
            rw [skipWs_cons_not '\x7b' (by decide), parseValCore_brace, parseObjBody,
              skipWs_cons_not '\x7d' (by decide)]
            rfl
        | cons p restf =>
            obtain ⟨k, w⟩ := p
            show parseValCore f (skipWs (('\x7b' :: '\n' ::
              (dumpEntries (lvl + 1) ((k, w) :: restf) ++
                '\n' :: padC lvl ++ ['\x7d'])) ++ rest)) = _
            simp only [List.cons_append, List.append_assoc, List.singleton_append,
              List.nil_append]
            rw [skipWs_cons_not '\x7b' (by decide), parseValCore_brace, parseObjBody,
              skipWs_cons_ws '\n' (by decide)]
            have hjs : jsizeL ((k, w) :: restf) ≤ f := by
              have hs : jsize (JVal.obj ((k, w) :: restf)) =
                1 + jsizeL ((k, w) :: restf) := rfl
              omega
            have hwf2 : jwfL ((k, w) :: restf) = true ∧
                keysNodup ((k, w) :: restf) = true := by
              have he : jwf (.obj ((k, w) :: restf)) =
                (keysNodup ((k, w) :: restf) && jwfL ((k, w) :: restf)) := rfl
              rw [he] at hwf
              simp only [Bool.and_eq_true] at hwf
              exact ⟨hwf.2, hwf.1⟩
            have hent := (IH f (by omega)).2 (lvl + 1) lvl ((k, w) :: restf) [] rest
              hjs (by simp) hwf2.1 (by simpa using hwf2.2)
            simp only [List.nil_append] at hent
            obtain ⟨X, hX⟩ := dumpEntries_head (lvl + 1) k w restf
              ('\n' :: (padC lvl ++ '\x7d' :: rest))
            simp only [List.append_assoc, List.cons_append, List.nil_append] at hent hX ⊢
            rw [hX] at hent ⊢
            show parseEntriesCore f ('"' :: X) [] = some (JVal.obj ((k, w) :: restf), rest)
            exact hent
  refine ⟨hvalpart, ?_⟩
  intro lvl lvl2 fields acc rest hsz hne hwfL hnodup
  obtain ⟨⟨k, w⟩, restf, rfl⟩ : ∃ p restf, fields = p :: restf := by
    cases fields with
    | nil => exact absurd rfl hne
    | cons p restf => exact ⟨p, restf, rfl⟩
  have hfe : 1 ≤ fuel := by
    have hs : jsizeL ((k, w) :: restf) = 1 + jsize w + jsizeL restf := rfl
    omega
  obtain ⟨f, rfl⟩ : ∃ f, fuel = f + 1 := ⟨fuel - 1, by omega⟩
  have hwfw : jwf w = true ∧ jwfL restf = true := by
    have he : jwfL ((k, w) :: restf) = (jwf w && jwfL restf) := rfl
    rw [he] at hwfL
    simpa using hwfL
  have hkacc : keyMem k acc = false := keysNodup_of_middle acc k w restf hnodup
  cases restf with
  | nil =>
      show parseEntriesCore (f + 1)
        (skipWs ((padC lvl ++ ('"' :: escapeL k.data ++ ['"']) ++
          ':' :: ' ' :: dumpVal lvl w) ++ '\n' :: padC lvl2 ++ '\x7d' :: rest)) acc = _
      simp only [List.cons_append, List.nil_append, List.append_assoc]
      rw [skipWs_pad, skipWs_cons_not '"' (by decide), parseEntriesCore_quote]
      have hw : parseVal (f + 1) (' ' :: (dumpVal lvl w ++ '\n' :: (padC lvl2 ++ '\x7d' :: rest))) =
          some (w, '\n' :: (padC lvl2 ++ '\x7d' :: rest)) := by
        simp only [parseVal.eq_def]
        rw [skipWs_cons_ws ' ' (by decide)]
        have hv := hvalpart lvl w ('\n' :: (padC lvl2 ++ '\x7d' :: rest))
          (by have hs : jsizeL [(k, w)] = 1 + jsize w + jsizeL [] := rfl; omega)
          hwfw.1 (by exact (by decide : ('\n' : Char).isDigit = false))
        simp only [parseVal.eq_def] at hv
        exact hv
      simp only [parseStringChars_escapeL, skipWs_cons_not ':' (by decide), hw,
        skipWs_cons_ws '\n' (by decide), skipWs_pad, skipWs_cons_not '\x7d' (by decide),
        dictInsert_append acc k w hkacc]
  | cons p2 restf2 =>
      show parseEntriesCore (f + 1)
        (skipWs ((padC lvl ++ ('"' :: escapeL k.data ++ ['"']) ++
          ':' :: ' ' :: dumpVal lvl w ++ ',' :: '\n' :: dumpEntries lvl (p2 :: restf2)) ++
          '\n' :: padC lvl2 ++ '\x7d' :: rest)) acc = _
      simp only [List.cons_append, List.nil_append, List.append_assoc]
      rw [skipWs_pad, skipWs_cons_not '"' (by decide), parseEntriesCore_quote]
      have hw : parseVal (f + 1) (' ' :: (dumpVal lvl w ++ ',' :: '\n' ::
          (dumpEntries lvl (p2 :: restf2) ++ '\n' :: (padC lvl2 ++ '\x7d' :: rest)))) =
          some (w, ',' :: '\n' ::
            (dumpEntries lvl (p2 :: restf2) ++ '\n' :: (padC lvl2 ++ '\x7d' :: rest))) := by
        simp only [parseVal.eq_def]
        rw [skipWs_cons_ws ' ' (by decide)]
        have hv := hvalpart lvl w (',' :: '\n' ::
            (dumpEntries lvl (p2 :: restf2) ++ '\n' :: (padC lvl2 ++ '\x7d' :: rest)))
          (by have hs : jsizeL ((k, w) :: p2 :: restf2) =
                1 + jsize w + jsizeL (p2 :: restf2) := rfl
              omega)
          hwfw.1 (by exact (by decide : (',' : Char).isDigit = false))
        simp only [parseVal.eq_def] at hv
        exact hv
      have hrec := (IH f (by omega)).2 lvl lvl2 (p2 :: restf2) (acc ++ [(k, w)]) rest
        (by have hs : jsizeL ((k, w) :: p2 :: restf2) =
              1 + jsize w + jsizeL (p2 :: restf2) := rfl
            omega)
        (by simp) hwfw.2
        (by rw [List.append_assoc]; simpa using hnodup)
      simp only [parseStringChars_escapeL, skipWs_cons_not ':' (by decide), hw,
        skipWs_cons_not ',' (by decide), dictInsert_append acc k w hkacc,
        parseEntries.eq_def, skipWs_cons_ws '\n' (by decide)]
      simp only [List.cons_append, List.append_assoc, List.nil_append,
        List.singleton_append] at hrec
      exact hrec

/-- The dumped text is at least as long as the structural size, so the
length-based fuel of `parseJson` suffices. -/
theorem dump_len : ∀ N : Nat,
    (∀ lvl v, jsize v ≤ N → jsize v ≤ (dumpVal lvl v).length) ∧
    (∀ lvl fields, jsizeL fields ≤ N → fields ≠ [] →
      jsizeL fields + 1 ≤ (dumpEntries lvl fields).length) := by
  intro N
  induction N using Nat.strong_induction_on with
  | _ N IH =>
  have hv : ∀ lvl v, jsize v ≤ N → jsize v ≤ (dumpVal lvl v).length := by
    intro lvl v hsz
    cases v with
    | null => exact (by decide : jsize JVal.null ≤ 4)
    | bool b => cases b <;> simp [jsize, dumpVal]
    | str s =>
        show jsize (.str s) ≤ ('"' :: escapeL s.data ++ ['"']).length
        simp [jsize, List.length_append]
    | num n =>
        show jsize (.num n) ≤ (intDump n).length
        unfold intDump
        by_cases hneg : n < 0
        · rw [if_pos hneg]
          obtain ⟨c, tail, hct, _⟩ := natDump_cons n.natAbs
          simp [jsize, hct]
        · rw [if_neg hneg]
          obtain ⟨c, tail, hct, _⟩ := natDump_cons n.toNat
          simp [jsize, hct]
    | obj fields =>
        cases fields with
        | nil => exact (by decide : jsize (JVal.obj []) ≤ 2)
        | cons p restf =>
            obtain ⟨k, w⟩ := p
            have hszL : jsizeL ((k, w) :: restf) ≤ N - 1 := by
              have hs : jsize (JVal.obj ((k, w) :: restf)) =
                1 + jsizeL ((k, w) :: restf) := rfl
              omega
            have hN : 1 ≤ N := by
              have := jsize_pos (JVal.obj ((k, w) :: restf))
              omega
            have hent := (IH (N - 1) (by omega)).2 (lvl + 1) ((k, w) :: restf)
              hszL (by simp)
            show jsize (.obj ((k, w) :: restf)) ≤
              ('\x7b' :: '\n' :: (dumpEntries (lvl + 1) ((k, w) :: restf) ++
                '\n' :: padC lvl ++ ['\x7d'])).length
            have hs : jsize (JVal.obj ((k, w) :: restf)) =
              1 + jsizeL ((k, w) :: restf) := rfl
            simp only [List.length_cons, List.length_append]
            omega
  refine ⟨hv, ?_⟩
  intro lvl fields hsz hne
  obtain ⟨⟨k, w⟩, restf, rfl⟩ : ∃ p restf, fields = p :: restf := by
    cases fields with
    | nil => exact absurd rfl hne
    | cons p restf => exact ⟨p, restf, rfl⟩
  have hw : jsize w ≤ (dumpVal lvl w).length := by
    apply hv
    have hs : jsizeL ((k, w) :: restf) = 1 + jsize w + jsizeL restf := rfl
    omega
  cases restf with
  | nil =>
      show jsizeL [(k, w)] + 1 ≤
        (padC lvl ++ dumpStr k ++ ':' :: ' ' :: dumpVal lvl w).length
      have hs : jsizeL [(k, w)] = 1 + jsize w + jsizeL [] := rfl
      simp only [List.length_append, List.length_cons, dumpStr, hs]
      have hz : jsizeL ([] : PyDict) = 0 := rfl
      omega
  | cons p2 restf2 =>
      have hrec := (IH (N - 1) (by
          have hs : jsizeL ((k, w) :: p2 :: restf2) =
            1 + jsize w + jsizeL (p2 :: restf2) := rfl
          have := jsize_pos w
          omega)).2 lvl (p2 :: restf2)
        (by
          have hs : jsizeL ((k, w) :: p2 :: restf2) =
            1 + jsize w + jsizeL (p2 :: restf2) := rfl
          have := jsize_pos w
          omega)
        (by simp)
      show jsizeL ((k, w) :: p2 :: restf2) + 1 ≤
        (padC lvl ++ dumpStr k ++ ':' :: ' ' :: dumpVal lvl w ++
          ',' :: '\n' :: dumpEntries lvl (p2 :: restf2)).length
      have hs : jsizeL ((k, w) :: p2 :: restf2) =
        1 + jsize w + jsizeL (p2 :: restf2) := rfl
      simp only [List.length_append, List.length_cons, dumpStr]
      omega

/-- Parsing the exact file text of a well-formed value gives it back. -/
theorem parseJson_dump (v : JVal) (h : jwf v = true) :
    parseJson (String.mk (dumpVal 0 v)) = some v := by
  unfold parseJson
  rw [show (String.mk (dumpVal 0 v)).data = dumpVal 0 v from rfl]
  have hlen : jsize v ≤ (dumpVal 0 v).length :=
    (dump_len (jsize v)).1 0 v le_rfl
  have hp := (parse_dump_all ((dumpVal 0 v).length + 1)).1 0 v []
    (by omega) h trivial
  rw [List.append_nil] at hp
  rw [hp]
  rfl

theorem jwf_str (s : String) : jwf (.str s) = true := rfl

theorem jwf_bool (b : Bool) : jwf (.bool b) = true := rfl

theorem group_jwf (d : PyDict) (g : PyDict) (key : String) (hwf : jwfL d = true)
    (hg : dictGet d key (.obj []) = .obj g) :
    keysNodup g = true ∧ jwfL g = true := by
  have hj := dictGet_jwf d key (.obj []) hwf rfl
  rw [hg] at hj
  rw [show jwf (.obj g) = (keysNodup g && jwfL g) from rfl] at hj
  simpa using hj

theorem extract_basic_wf (d : PyDict) (hwf : jwfL d = true) (out : PyDict)
    (h : extract_basic_info d = .ok out) :
    keysNodup out = true ∧ jwfL out = true := by
  cases hdet : determine_ip_version (dictGet d "ip_address" (.str "")) with
  | error e =>
      simp only [extract_basic_info, hdet, bind, Except.bind] at h
      cases h
  | ok ver =>
      simp only [extract_basic_info, hdet, bind, Except.bind, pure, Except.pure,
        Except.ok.injEq] at h
      have hget : ∀ k, jwf (dictGet d k (.str "N/A")) = true :=
        fun k => dictGet_jwf d k _ hwf rfl
      constructor
      · rw [← h]
        simp [keysNodup, keyMem]
      · rw [← h]
        simp [jwfL, hget, jwf_str]

theorem extract_connection_wf (d : PyDict) (hwf : jwfL d = true) (out : PyDict)
    (h : extract_connection_info d = .ok out) :
    keysNodup out = true ∧ jwfL out = true := by
  cases hg : dictGet d "connection" (.obj []) with
  | obj g =>
      rw [extract_connection_eq d g hg] at h
      obtain ⟨_, hjL⟩ := group_jwf d g "connection" hwf hg
      have hget : ∀ k, jwf (dictGet g k (.str "N/A")) = true :=
        fun k => dictGet_jwf g k _ hjL rfl
      simp only [Except.ok.injEq] at h
      constructor
      · rw [← h]; simp [keysNodup, keyMem]
      · rw [← h]; simp [jwfL, hget, jwf_str]
  | str s => simp [extract_connection_info, hg, pyGet, bind, Except.bind] at h
  | num n => simp [extract_connection_info, hg, pyGet, bind, Except.bind] at h
  | bool b => simp [extract_connection_info, hg, pyGet, bind, Except.bind] at h
  | null => simp [extract_connection_info, hg, pyGet, bind, Except.bind] at h

theorem extract_timezone_wf (d : PyDict) (hwf : jwfL d = true) (out : PyDict)
    (h : extract_timezone_info d = .ok out) :
    keysNodup out = true ∧ jwfL out = true := by
  cases hg : dictGet d "timezone" (.obj []) with
  | obj g =>
      rw [extract_timezone_eq d g hg] at h
      obtain ⟨_, hjL⟩ := group_jwf d g "timezone" hwf hg
      have hget : ∀ k, jwf (dictGet g k (.str "N/A")) = true :=
        fun k => dictGet_jwf g k _ hjL rfl
      simp only [Except.ok.injEq] at h
      constructor
      · rw [← h]; simp [keysNodup, keyMem]
      · rw [← h]; simp [jwfL, hget, jwf_str]
  | str s => simp [extract_timezone_info, hg, pyGet, bind, Except.bind] at h
  | num n => simp [extract_timezone_info, hg, pyGet, bind, Except.bind] at h
  | bool b => simp [extract_timezone_info, hg, pyGet, bind, Except.bind] at h
  | null => simp [extract_timezone_info, hg, pyGet, bind, Except.bind] at h

theorem extract_security_wf (d : PyDict) (hwf : jwfL d = true) (out : PyDict)
    (h : extract_security_info d = .ok out) :
    keysNodup out = true ∧ jwfL out = true := by
  cases hg : dictGet d "security" (.obj []) with
  | obj g =>
      obtain ⟨tl, hsec⟩ := extract_security_eq d g hg
      rw [hsec] at h
      obtain ⟨_, hjL⟩ := group_jwf d g "security" hwf hg
      have hget : ∀ k, jwf (dictGet g k (.bool false)) = true :=
        fun k => dictGet_jwf g k _ hjL rfl
      simp only [Except.ok.injEq] at h
      constructor
      · rw [← h]; simp [keysNodup, keyMem]
      · rw [← h]; simp [jwfL, hget, jwf_str]
  | str s => simp [extract_security_info, hg, pyGet, bind, Except.bind] at h
  | num n => simp [extract_security_info, hg, pyGet, bind, Except.bind] at h
  | bool b => simp [extract_security_info, hg, pyGet, bind, Except.bind] at h
  | null => simp [extract_security_info, hg, pyGet, bind, Except.bind] at h

theorem extract_currency_wf (d : PyDict) (hwf : jwfL d = true) (out : PyDict)
    (h : extract_currency_info d = .ok out) :
    keysNodup out = true ∧ jwfL out = true := by
  cases hg : dictGet d "currency" (.obj []) with
  | obj g =>
      rw [extract_currency_eq d g hg] at h
      obtain ⟨_, hjL⟩ := group_jwf d g "currency" hwf hg
      have hget : ∀ k, jwf (dictGet g k (.str "N/A")) = true :=
        fun k => dictGet_jwf g k _ hjL rfl
      simp only [Except.ok.injEq] at h
      constructor
      · rw [← h]; simp [keysNodup, keyMem]
      · rw [← h]; simp [jwfL, hget, jwf_str]
  | str s => simp [extract_currency_info, hg, pyGet, bind, Except.bind] at h
  | num n => simp [extract_currency_info, hg, pyGet, bind, Except.bind] at h
  | bool b => simp [extract_currency_info, hg, pyGet, bind, Except.bind] at h
  | null => simp [extract_currency_info, hg, pyGet, bind, Except.bind] at h

theorem extract_flag_wf (d : PyDict) (hwf : jwfL d = true) (out : PyDict)
    (h : extract_flag_info d = .ok out) :
    keysNodup out = true ∧ jwfL out = true := by
  cases hg : dictGet d "flag" (.obj []) with
  | obj g =>
      rw [extract_flag_eq d g hg] at h
      obtain ⟨_, hjL⟩ := group_jwf d g "flag" hwf hg
      have hget : ∀ k, jwf (dictGet g k (.str "N/A")) = true :=
        fun k => dictGet_jwf g k _ hjL rfl
      simp only [Except.ok.injEq] at h
      constructor
      · rw [← h]; simp [keysNodup, keyMem]
      · rw [← h]; simp [jwfL, hget, jwf_str]
  | str s => simp [extract_flag_info, hg, pyGet, bind, Except.bind] at h
  | num n => simp [extract_flag_info, hg, pyGet, bind, Except.bind] at h
  | bool b => simp [extract_flag_info, hg, pyGet, bind, Except.bind] at h
  | null => simp [extract_flag_info, hg, pyGet, bind, Except.bind] at h

/-- The whole categorised output of a well-formed response is itself a
well-formed JSON value. -/
theorem processed_wf (raw : PyDict) (hwf : dictWF raw = true) (cats : CategorizedInfo)
    (h : process_all_data (some raw) = .ok cats) :
    jwf (.obj (cats.map (fun p => (p.1, JVal.obj p.2)))) = true := by
  have hjL : jwfL raw = true := by
    unfold dictWF at hwf
    simp only [Bool.and_eq_true] at hwf
    exact hwf.2
  by_cases hval : validate_response (some raw) = true
  · simp only [process_all_data, hval, not_true, if_false, bind, Except.bind,
      pure, Except.pure] at h
    cases hb : extract_basic_info raw with
    | error e => rw [hb] at h; cases h
    | ok b =>
    rw [hb] at h
    cases hc : extract_connection_info raw with
    | error e => rw [hc] at h; cases h
    | ok c =>
    rw [hc] at h
    cases ht : extract_timezone_info raw with
    | error e => rw [ht] at h; cases h
    | ok t =>
    rw [ht] at h
    cases hs : extract_security_info raw with
    | error e => rw [hs] at h; cases h
    | ok s =>
    rw [hs] at h
    cases hcu : extract_currency_info raw with
    | error e => rw [hcu] at h; cases h
    | ok cu =>
    rw [hcu] at h
    cases hf : extract_flag_info raw with
    | error e => rw [hf] at h; cases h
    | ok fl =>
    rw [hf] at h
    simp only [Except.ok.injEq] at h
    obtain ⟨hbk, hbw⟩ := extract_basic_wf raw hjL b hb
    obtain ⟨hck, hcw⟩ := extract_connection_wf raw hjL c hc
    obtain ⟨htk, htw⟩ := extract_timezone_wf raw hjL t ht
    obtain ⟨hsk, hsw⟩ := extract_security_wf raw hjL s hs
    obtain ⟨hcuk, hcuw⟩ := extract_currency_wf raw hjL cu hcu
    obtain ⟨hfk, hfw⟩ := extract_flag_wf raw hjL fl hf
    rw [← h]
    simp only [List.map]
    rw [show jwf (.obj [("basic", JVal.obj b), ("connection", .obj c),
        ("timezone", .obj t), ("security", .obj s), ("currency", .obj cu),
        ("flag", .obj fl)]) =
      (keysNodup [("basic", JVal.obj b), ("connection", .obj c),
        ("timezone", .obj t), ("security", .obj s), ("currency", .obj cu),
        ("flag", .obj fl)] &&
       jwfL [("basic", JVal.obj b), ("connection", .obj c),
        ("timezone", .obj t), ("security", .obj s), ("currency", .obj cu),
        ("flag", .obj fl)]) from rfl]
    have hjwf : ∀ x : PyDict, keysNodup x = true → jwfL x = true →
        jwf (.obj x) = true := by
      intro x h1 h2
      rw [show jwf (.obj x) = (keysNodup x && jwfL x) from rfl, h1, h2]
      rfl
    simp [keysNodup, keyMem, jwfL, hjwf b hbk hbw, hjwf c hck hcw, hjwf t htk htw,
      hjwf s hsk hsw, hjwf cu hcuk hcuw, hjwf fl hfk hfw]
  · have hvf : validate_response (some raw) = false := by
      cases hv2 : validate_response (some raw)
      · rfl
      · exact absurd hv2 hval
    simp only [process_all_data, hvf, Bool.false_eq_true, not_false_iff,
      if_true, pure, Except.pure, Except.ok.injEq] at h
    rw [← h]
    rfl

/-- C8: serialising a CategorizedInfo produced by the transformer to JSON
via the file export (`json.dump(..., indent=4, ensure_ascii=False)`) and
reparsing the JSON yields the identical mapping.  The hypothesis `dictWF`
states that the raw response is a genuine Python dictionary (pairwise
distinct keys, recursively), which every dictionary produced by
`json.loads` satisfies; it is an artefact of the association-list
embedding, not a restriction of the claim. -/
theorem save_file_roundtrip (raw : PyDict) (hwf : dictWF raw = true)
    (cats : CategorizedInfo) (h : process_all_data (some raw) = .ok cats) :
    parseJson (save_to_file cats) =
      some (.obj (cats.map (fun p => (p.1, JVal.obj p.2)))) := by
  unfold save_to_file
  exact parseJson_dump _ (processed_wf raw hwf cats h)

/-- C8 witness: the round trip for the output of a concrete lookup. -/
theorem save_file_roundtrip_witness :
    dictWF [("ip_address", JVal.str "8.8.8.8")] = true ∧
    process_all_data (some [("ip_address", JVal.str "8.8.8.8")]) =
      .ok (ipOnlyCats "8.8.8.8") ∧
    parseJson (save_to_file (ipOnlyCats "8.8.8.8")) =
      some (.obj ((ipOnlyCats "8.8.8.8").map (fun p => (p.1, JVal.obj p.2)))) :=
  ⟨by decide, by rfl,
   save_file_roundtrip [("ip_address", .str "8.8.8.8")] (by decide)
     (ipOnlyCats "8.8.8.8") (by rfl)⟩
